import Mathlib

/-!
Formal model of the bounty-hunting agent in this repository
(`src/agent.ts`, `src/bounty-client.ts`, `src/types.ts`, `src/index.ts`).

The agent's network calls (the listing service, the OpenRouter chat
endpoint) are modelled as an environment record of outcome functions; all
other logic (JSON extraction and parsing from the oracle reply, the
tracking sets, the cycle loop, the claim policy) is embedded directly from
the TypeScript source.  JavaScript numbers are modelled as `JSNum`
(rationals plus NaN and the two infinities); JavaScript dynamic values
produced by `JSON.parse` are modelled as `JValue`.
-/

/-- JavaScript number: a rational, NaN, or an infinity.  (Floating-point
rounding is not modelled; every literal appearing in the source and in the
replies considered here is exactly representable.) -/
inductive JSNum where
  | nan
  | posInf
  | negInf
  | fin (q : Rat)
deriving DecidableEq, Repr

/-- JavaScript dynamic value as produced by `JSON.parse`, plus `undefined` for
the value of a missing property. -/
inductive JValue where
  | undefined
  | jnull
  | bool (b : Bool)
  | num (q : Rat)
  | str (s : String)
  | arr (elems : List JValue)
  | obj (fields : List (String × JValue))

/-- Property access `v[k]`: on an object the last binding of the key wins
(matching `JSON.parse` duplicate-key behaviour); on anything else the
result is `undefined`. -/
def jget (v : JValue) (k : String) : JValue :=
  match v with
  | .obj fields =>
    match fields.reverse.find? (fun p => p.1 == k) with
    | some p => p.2
    | none => .undefined
  | _ => .undefined

/-- JavaScript truthiness.  (`JValue.num` never carries NaN: JSON numbers
cannot be NaN and the only literals fed in are finite.) -/
def truthy : JValue → Bool
  | .undefined => false
  | .jnull => false
  | .bool b => b
  | .num q => decide (q ≠ 0)
  | .str s => decide (s ≠ "")
  | .arr _ => true
  | .obj _ => true

def isDigitCh (c : Char) : Bool := decide ('0' ≤ c) && decide (c ≤ '9')

def digitsToNat (ds : List Char) : Nat :=
  ds.foldl (fun a c => a * 10 + (c.toNat - 48)) 0

/-- Multiply a rational by `10 ^ e` for an integer exponent. -/
def tenPow (q : Rat) (e : Int) : Rat :=
  if 0 ≤ e then q * (10 : Rat) ^ e.toNat else q / (10 : Rat) ^ (-e).toNat

/-- Value of a decimal literal `intDs . fracDs e exp`. -/
def decValue (intDs fracDs : List Char) (e : Int) : Rat :=
  tenPow ((digitsToNat intDs : Rat) + (digitsToNat fracDs : Rat) / (10 : Rat) ^ fracDs.length) e

/-- Whitespace recognised by JavaScript string trimming (ASCII part). -/
def jsWs (c : Char) : Bool :=
  c == ' ' || c == '\t' || c == '\n' || c == '\r' || c == '\x0b' || c == '\x0c'

def jsTrim (cs : List Char) : List Char :=
  ((cs.dropWhile jsWs).reverse.dropWhile jsWs).reverse

/-- Parse an unsigned decimal numeric literal (`StrDecimalLiteral`:
`digits [. digits] [exponent]`, also `. digits`), consuming the whole
input; `none` when the input is not such a literal. -/
def parseDecExp (intDs fracDs : List Char) (r : List Char) : Option Rat :=
  match r with
  | [] => some (decValue intDs fracDs 0)
  | c :: t =>
    if c = 'e' ∨ c = 'E' then
      let st := match t with
        | '+' :: u => ((1 : Int), u)
        | '-' :: u => ((-1 : Int), u)
        | _ => ((1 : Int), t)
      let ds := st.2.takeWhile isDigitCh
      if ds.isEmpty ∨ ¬ (st.2.dropWhile isDigitCh).isEmpty then none
      else some (decValue intDs fracDs (st.1 * (digitsToNat ds : Int)))
    else none

def parseDecLit (cs : List Char) : Option Rat :=
  let intDs := cs.takeWhile isDigitCh
  let r1 := cs.dropWhile isDigitCh
  match r1 with
  | '.' :: t =>
    let fracDs := t.takeWhile isDigitCh
    if intDs.isEmpty ∧ fracDs.isEmpty then none
    else parseDecExp intDs fracDs (t.dropWhile isDigitCh)
  | _ =>
    if intDs.isEmpty then none else parseDecExp intDs [] r1

def hexDigitVal (c : Char) : Option Nat :=
  if decide ('0' ≤ c) && decide (c ≤ '9') then some (c.toNat - 48)
  else if decide ('a' ≤ c) && decide (c ≤ 'f') then some (c.toNat - 87)
  else if decide ('A' ≤ c) && decide (c ≤ 'F') then some (c.toNat - 55)
  else none

/-- Parse digits of a radix literal (used for `0x`/`0o`/`0b` inputs of
`Number`), consuming the whole input. -/
def parseRadix (radix : Nat) (val : Char → Option Nat) (ds : List Char) : Option Rat :=
  if ds.isEmpty then none
  else
    ds.foldl (fun acc c =>
      match acc, val c with
      | some a, some v => if v < radix then some (a * radix + v) else none
      | _, _ => none) (some 0) |>.map (fun n => (n : Rat))

/-- Sign, `Infinity`, or decimal part of a `Number(string)` conversion. -/
def jsSignedNumericPart (t : List Char) : JSNum :=
  let st := match t with
    | '+' :: u => (false, u)
    | '-' :: u => (true, u)
    | _ => (false, t)
  if st.2 = "Infinity".data then (if st.1 then .negInf else .posInf)
  else
    match parseDecLit st.2 with
    | some q => .fin (if st.1 then -q else q)
    | none => .nan

/-- JavaScript `Number(string)` conversion: trim whitespace, empty gives 0,
`[+-]?Infinity`, `0x`/`0o`/`0b` radix literals, or a signed decimal
literal; anything else is NaN. -/
def jsNumberOfString (s : String) : JSNum :=
  match jsTrim s.data with
  | [] => .fin 0
  | '0' :: x :: ds =>
    if x = 'x' ∨ x = 'X' then
      match parseRadix 16 hexDigitVal ds with
      | some q => .fin q
      | none => .nan
    else if x = 'o' ∨ x = 'O' then
      match parseRadix 8 (fun c => if isDigitCh c then some (c.toNat - 48) else none) ds with
      | some q => .fin q
      | none => .nan
    else if x = 'b' ∨ x = 'B' then
      match parseRadix 2 (fun c => if isDigitCh c then some (c.toNat - 48) else none) ds with
      | some q => .fin q
      | none => .nan
    else jsSignedNumericPart ('0' :: x :: ds)
  | t => jsSignedNumericPart t

/-- JavaScript `ToNumber` on a dynamic value.  Arrays and objects coerce
through string conversion in JavaScript; here only the empty array (which
coerces to 0) is given its exact value and other arrays/objects are
approximated as NaN — no oracle reply exercised below produces them in a
numeric position. -/
def jsToNumber : JValue → JSNum
  | .undefined => .nan
  | .jnull => .fin 0
  | .bool b => .fin (if b then 1 else 0)
  | .num q => .fin q
  | .str s => jsNumberOfString s
  | .arr [] => .fin 0
  | .arr (_ :: _) => .nan
  | .obj _ => .nan

/-- JavaScript `v >= q` for a numeric literal `q` on the right: the left
side is coerced with `ToNumber`; any NaN comparison is false. -/
def jsGE (v : JValue) (q : Rat) : Bool :=
  match jsToNumber v with
  | .fin x => decide (q ≤ x)
  | .posInf => true
  | .negInf => false
  | .nan => false

/-- JavaScript `a > b` on numbers: false whenever either side is NaN. -/
def jsGT : JSNum → JSNum → Bool
  | .nan, _ => false
  | _, .nan => false
  | .posInf, .posInf => false
  | .posInf, _ => true
  | .negInf, _ => false
  | .fin _, .posInf => false
  | .fin _, .negInf => true
  | .fin a, .fin b => decide (b < a)

/-- Division of a JavaScript number by a positive rational constant. -/
def jsDiv (a : JSNum) (d : Rat) : JSNum :=
  match a with
  | .nan => .nan
  | .posInf => .posInf
  | .negInf => .negInf
  | .fin q => .fin (q / d)

/-! JSON parsing, modelling `JSON.parse` (its exact exception messages are
engine specific; here each failure carries a short description, which the
agent only ever embeds into a free-text reasoning string). -/

/-- JSON whitespace. -/
def jsonWs (c : Char) : Bool := c == ' ' || c == '\t' || c == '\n' || c == '\r'

def skipWs (cs : List Char) : List Char := cs.dropWhile jsonWs

/-- Parse the body of a JSON string after the opening quote, returning the
decoded characters and the remaining input.  (Surrogate pairs in `\u`
escapes are kept as separate code units, a harmless deviation: no string
exercised below contains them.) -/
def parseStrBody : Nat → List Char → Except String (List Char × List Char)
  | 0, _ => .error "string too long"
  | _, [] => .error "unterminated string"
  | fuel + 1, c :: rest =>
    if c = '"' then .ok ([], rest)
    else if c = '\\' then
      match rest with
      | [] => .error "unterminated escape"
      | e :: rest2 =>
        if e = 'u' then
          match rest2 with
          | a :: b :: c2 :: d :: rest3 =>
            match hexDigitVal a, hexDigitVal b, hexDigitVal c2, hexDigitVal d with
            | some ha, some hb, some hc, some hd =>
              match parseStrBody fuel rest3 with
              | .ok (s, r) => .ok (Char.ofNat (((ha * 16 + hb) * 16 + hc) * 16 + hd) :: s, r)
              | .error m => .error m
            | _, _, _, _ => .error "bad unicode escape"
          | _ => .error "bad unicode escape"
        else
          match (if e = '"' then some '"' else if e = '\\' then some '\\'
                 else if e = '/' then some '/' else if e = 'b' then some (Char.ofNat 8)
                 else if e = 'f' then some (Char.ofNat 12) else if e = 'n' then some '\n'
                 else if e = 'r' then some '\r' else if e = 't' then some '\t'
                 else none) with
          | some ch =>
            match parseStrBody fuel rest2 with
            | .ok (s, r) => .ok (ch :: s, r)
            | .error m => .error m
          | none => .error "bad escape"
    else if c.toNat < 32 then .error "control character in string"
    else
      match parseStrBody fuel rest with
      | .ok (s, r) => .ok (c :: s, r)
      | .error m => .error m

/-- Parse a JSON number (strict JSON grammar: a leading zero is a complete
integer part) starting at the first character of the literal. -/
def parseJsonNum (cs : List Char) : Except String (Rat × List Char) :=
  let sn := match cs with
    | '-' :: t => (true, t)
    | _ => (false, cs)
  match sn.2 with
  | [] => .error "number expected"
  | c :: rest0 =>
    if ¬ isDigitCh c then .error "number expected"
    else
      let ip := if c = '0' then ([c], rest0)
                else (sn.2.takeWhile isDigitCh, sn.2.dropWhile isDigitCh)
      let fr : Except String (List Char × List Char) :=
        match ip.2 with
        | '.' :: t =>
          let ds := t.takeWhile isDigitCh
          if ds.isEmpty then .error "digits expected after decimal point"
          else .ok (ds, t.dropWhile isDigitCh)
        | r => .ok ([], r)
      match fr with
      | .error m => .error m
      | .ok (fracDs, rest2) =>
        let ex : Except String (Int × List Char) :=
          match rest2 with
          | e :: t =>
            if e = 'e' ∨ e = 'E' then
              let st := match t with
                | '+' :: u => ((1 : Int), u)
                | '-' :: u => ((-1 : Int), u)
                | _ => ((1 : Int), t)
              let ds := st.2.takeWhile isDigitCh
              if ds.isEmpty then .error "digits expected in exponent"
              else .ok (st.1 * (digitsToNat ds : Int), st.2.dropWhile isDigitCh)
            else .ok (0, e :: t)
          | [] => .ok (0, [])
        match ex with
        | .error m => .error m
        | .ok (e, rest3) =>
          let v := decValue ip.1 fracDs e
          .ok (if sn.1 then -v else v, rest3)

def expectChars : List Char → List Char → Option (List Char)
  | [], cs => some cs
  | e :: es, c :: cs => if c = e then expectChars es cs else none
  | _ :: _, [] => none

mutual

/-- Parse one JSON value; `fuel` bounds recursion depth (the callers pass
the input length, which always suffices since every nesting level consumes
at least one character). -/
def parseVal : Nat → List Char → Except String (JValue × List Char)
  | 0, _ => .error "input too deeply nested"
  | fuel + 1, cs =>
    match skipWs cs with
    | [] => .error "value expected"
    | c :: rest =>
      if c = '"' then
        match parseStrBody (rest.length + 1) rest with
        | .ok (s, r) => .ok (.str (String.mk s), r)
        | .error m => .error m
      else if c = '{' then
        match skipWs rest with
        | '}' :: r2 => .ok (.obj [], r2)
        | r => parseMembers fuel r []
      else if c = '[' then
        match skipWs rest with
        | ']' :: r2 => .ok (.arr [], r2)
        | r => parseElems fuel r []
      else if c = 't' then
        match expectChars ['r', 'u', 'e'] rest with
        | some r => .ok (.bool true, r)
        | none => .error "invalid literal"
      else if c = 'f' then
        match expectChars ['a', 'l', 's', 'e'] rest with
        | some r => .ok (.bool false, r)
        | none => .error "invalid literal"
      else if c = 'n' then
        match expectChars ['u', 'l', 'l'] rest with
        | some r => .ok (.jnull, r)
        | none => .error "invalid literal"
      else if c = '-' ∨ isDigitCh c then
        match parseJsonNum (c :: rest) with
        | .ok (q, r) => .ok (.num q, r)
        | .error m => .error m
      else .error "unexpected character"

/-- Parse the members of a JSON object after the opening brace (the input
is known not to start with a closing brace). -/
def parseMembers : Nat → List Char → List (String × JValue) → Except String (JValue × List Char)
  | 0, _, _ => .error "input too deeply nested"
  | fuel + 1, cs, acc =>
    match skipWs cs with
    | '"' :: rest =>
      match parseStrBody (rest.length + 1) rest with
      | .error m => .error m
      | .ok (k, r1) =>
        match skipWs r1 with
        | ':' :: r2 =>
          match parseVal fuel r2 with
          | .error m => .error m
          | .ok (v, r3) =>
            match skipWs r3 with
            | ',' :: r4 => parseMembers fuel r4 (acc ++ [(String.mk k, v)])
            | '}' :: r4 => .ok (.obj (acc ++ [(String.mk k, v)]), r4)
            | _ => .error "expected comma or closing brace"
        | _ => .error "expected colon"
    | _ => .error "expected string key"

/-- Parse the elements of a JSON array after the opening bracket (the
input is known not to start with a closing bracket). -/
def parseElems : Nat → List Char → List JValue → Except String (JValue × List Char)
  | 0, _, _ => .error "input too deeply nested"
  | fuel + 1, cs, acc =>
    match parseVal fuel cs with
    | .error m => .error m
    | .ok (v, r1) =>
      match skipWs r1 with
      | ',' :: r2 => parseElems fuel r2 (acc ++ [v])
      | ']' :: r2 => .ok (.arr (acc ++ [v]), r2)
      | _ => .error "expected comma or closing bracket"

end

/-- `JSON.parse` on a character list: one value, surrounding whitespace
allowed, nothing else. -/
def jsonParseChars (cs : List Char) : Except String JValue :=
  match parseVal (cs.length + 1) cs with
  | .error m => .error m
  | .ok (v, rest) =>
    match skipWs rest with
    | [] => .ok v
    | _ => .error "unexpected trailing characters"

def jsonParse (s : String) : Except String JValue := jsonParseChars s.data

/-! Data model (`src/types.ts`). -/

/-- A bounty as listed by the remote service (`Bounty` in `types.ts`).
The unused optional payment receipt object is omitted: no code reads it. -/
structure Bounty where
  id : String
  title : String
  description : String
  status : String
  reward : String
  rewardFormatted : String
  tags : List String
  claimedBy : Option String := none
  createdAt : Option String := none
  completedAt : Option String := none
deriving DecidableEq, Repr

/-- One chat message sent to the reasoning oracle. -/
structure OpenRouterMessage where
  role : String
  content : String
deriving DecidableEq, Repr

/-- Result of one submit attempt (`SubmissionResult` in `types.ts`). -/
structure SubmissionResult where
  bountyId : String
  submission : String
  proof : String
  status : String
deriving DecidableEq, Repr

/-- Process-lifetime agent memory (`AgentState` in `types.ts`).  The
JavaScript `Set`s are modelled as duplicate-free lists in insertion
order. -/
structure AgentState where
  claimedBounties : List String
  completedBounties : List String
  skippedBounties : List String
  isRunning : Bool
deriving DecidableEq, Repr

/-- `Set.add`: append the element unless already present. -/
def addId (l : List String) (x : String) : List String :=
  if x ∈ l then l else l ++ [x]

/-- The constructor argument (`AgentConfig` in `types.ts`): optional
fields are `Option`s.  A number-typed field never carries NaN here (the
CLI entry point already replaces a NaN `MAX_REWARD`/`POLL_INTERVAL` with
the default before constructing the agent, and `mkConfig` below treats
NaN as falsy anyway). -/
structure AgentConfig where
  openRouterApiKey : String
  walletAddress : String
  model : Option String := none
  skills : Option (List String) := none
  maxReward : Option JSNum := none
  apiBase : Option String := none
  dryRun : Option Bool := none
  pollInterval : Option JSNum := none

/-- The resolved configuration (`Required<AgentConfig>`). -/
structure Config where
  openRouterApiKey : String
  walletAddress : String
  model : String
  skills : List String
  maxReward : JSNum
  apiBase : String
  dryRun : Bool
  pollInterval : JSNum

def DEFAULT_MODEL : String := "anthropic/claude-sonnet-4"

def DEFAULT_API_BASE : String := "https://bounty.owockibot.xyz"

/-- JavaScript falsiness of a number: 0 and NaN. -/
def jsFalsyNum : JSNum → Bool
  | .nan => true
  | .fin q => decide (q = 0)
  | _ => false

/-- The `BountyAgent` constructor's config resolution (`agent.ts` lines
20-30): `||` substitutes the default for any falsy given value, `??` only
for a missing one. -/
def mkConfig (c : AgentConfig) : Config :=
  { openRouterApiKey := c.openRouterApiKey
    walletAddress := c.walletAddress
    model := match c.model with
      | none => DEFAULT_MODEL
      | some m => if m = "" then DEFAULT_MODEL else m
    skills := c.skills.getD []
    maxReward := match c.maxReward with
      | none => .fin 100
      | some v => if jsFalsyNum v then .fin 100 else v
    apiBase := match c.apiBase with
      | none => DEFAULT_API_BASE
      | some a => if a = "" then DEFAULT_API_BASE else a
    dryRun := c.dryRun.getD false
    pollInterval := match c.pollInterval with
      | none => .fin 300000
      | some v => if jsFalsyNum v then .fin 300000 else v }

/-- The constructor's initial state (`agent.ts` lines 33-38). -/
def initialState : AgentState :=
  { claimedBounties := [], completedBounties := [], skippedBounties := [], isRunning := false }

/-- Outcomes of the agent's network calls.  `listing` is the result of
`GET /bounties`; `chat` is the whole OpenRouter round trip of
`BountyAgent.chat` (an `error` models a rejected fetch or a non-2xx
status, an `ok` carries `choices[0]?.message?.content || ""`); `claim` and
`submit` are the two mutating listing-service calls, keyed on exactly the
arguments the client sends. -/
structure CycleEnv where
  listing : Except String (List Bounty)
  chat : List OpenRouterMessage → Except String String
  claim : String → String → Except String String
  submit : String → String → String → String → Except String String

/-! Prompt construction (`agent.ts` lines 86-113 and 165-183). -/

/-- `skills.join(", ") || "general software development"`. -/
def skillsText (cfg : Config) : String :=
  let s := String.intercalate ", " cfg.skills
  if s = "" then "general software development" else s

def bountyDetails (b : Bounty) : String :=
  "- Title: " ++ b.title
    ++ "\n- Description: " ++ (if b.description = "" then "No description" else b.description)
    ++ "\n- Tags: " ++ String.intercalate ", " b.tags
    ++ "\n- Reward: " ++ b.rewardFormatted

def evalPrompt (cfg : Config) (b : Bounty) : String :=
  "You are an AI agent evaluating whether to work on a bounty. Analyze the bounty and determine if the given skills are sufficient.\n\nAgent skills: "
    ++ skillsText cfg
    ++ "\n\nBounty details:\n"
    ++ bountyDetails b
    ++ "\n\nRespond in JSON format only:\n\x7b\n  \"suitable\": true/false,\n  \"confidence\": 0.0-1.0,\n  \"reasoning\": \"brief explanation\",\n  \"estimatedEffort\": \"low/medium/high\"\n\x7d"

def evalMessages (cfg : Config) (b : Bounty) : List OpenRouterMessage :=
  [⟨"system", "You are an AI agent that evaluates bounty suitability. Always respond with valid JSON."⟩,
   ⟨"user", evalPrompt cfg b⟩]

def planPrompt (b : Bounty) : String :=
  "Generate a detailed work completion plan for this bounty:\n\nTitle: " ++ b.title
    ++ "\nDescription: " ++ (if b.description = "" then "No description" else b.description)
    ++ "\nTags: " ++ String.intercalate ", " b.tags
    ++ "\nReward: " ++ b.rewardFormatted
    ++ "\n\nDescribe what you built/completed and how it meets the requirements. Be specific and professional."

def planMessages (b : Bounty) : List OpenRouterMessage :=
  [⟨"system", "You are an AI agent completing bounty work. Provide a clear, detailed description of the work you would do to complete this bounty."⟩,
   ⟨"user", planPrompt b⟩]

/-! The listing client (`bounty-client.ts`). -/

/-- `listBounties`: fetch result filtered to truthy titles. -/
def listBounties (remote : List Bounty) : List Bounty :=
  remote.filter (fun b => b.title != "")

/-- `listOpenBounties`: open-status bounties with a title. -/
def listOpenBounties (remote : List Bounty) : List Bounty :=
  (listBounties remote).filter (fun b => b.status == "open")

/-! The agent (`agent.ts`). -/

/-- `discoverBounties` (lines 72-81): open bounties not yet tracked in any
of the three sets. -/
def discoverBounties (remote : List Bounty) (st : AgentState) : List Bounty :=
  (listOpenBounties remote).filter (fun b =>
    !(decide (b.id ∈ st.claimedBounties)) &&
    !(decide (b.id ∈ st.completedBounties)) &&
    !(decide (b.id ∈ st.skippedBounties)))

/-- `response.match(/\{[\s\S]*\}/)` on a character list: the (greedy,
backtracking) regex matches from the first opening brace to the last
closing brace of the whole input, or fails when no opening brace is
followed by a closing one. -/
def extractSpan (cs : List Char) : Option (List Char) :=
  let t := cs.dropWhile (fun c => c != '{')
  let r := t.reverse.dropWhile (fun c => c != '}')
  if r.isEmpty then none else some r.reverse

def extractJsonSpan (s : String) : Option String :=
  (extractSpan s.data).map String.mk

/-- The fail-closed default `EvaluationResult` (`agent.ts` lines 118-123
and 129-134). -/
def evalFailure (msg : String) : JValue :=
  .obj [("suitable", .bool false), ("confidence", .num 0),
        ("reasoning", .str msg), ("estimatedEffort", .str "high")]

/-- `evaluateBounty` (lines 86-136): ask the oracle, extract the regex
span, `JSON.parse` it; any thrown error (chat failure or parse failure) is
caught into the default with reasoning `Evaluation error: <message>`, and
a missing span gives the default with reasoning
`Failed to parse AI evaluation`. -/
def evaluateBounty (env : CycleEnv) (cfg : Config) (b : Bounty) : JValue :=
  match env.chat (evalMessages cfg b) with
  | .error e => evalFailure ("Evaluation error: " ++ e)
  | .ok response =>
    match extractJsonSpan response with
    | none => evalFailure "Failed to parse AI evaluation"
    | some span =>
      match jsonParse span with
      | .error e => evalFailure ("Evaluation error: " ++ e)
      | .ok v => v

/-- `claimBounty` (lines 141-160): in dry-run mode record the id and
succeed without any network call; otherwise call the client, record the id
on success, and swallow a failure into `false`. -/
def claimBounty (env : CycleEnv) (cfg : Config) (st : AgentState) (bountyId : String) :
    Bool × AgentState :=
  if cfg.dryRun then
    (true, { st with claimedBounties := addId st.claimedBounties bountyId })
  else
    match env.claim bountyId cfg.walletAddress with
    | .ok _ => (true, { st with claimedBounties := addId st.claimedBounties bountyId })
    | .error _ => (false, st)

/-- `generateWorkPlan` (lines 165-186): a second oracle call whose raw
reply is returned; its failures propagate. -/
def generateWorkPlan (env : CycleEnv) (b : Bounty) : Except String String :=
  env.chat (planMessages b)

/-- `submitWork` (lines 191-221): in dry-run mode record the id and return
a `dry_run` result without any network call; otherwise call the client,
record the id on success, and swallow a failure into an `error: ...`
status. -/
def submitWork (env : CycleEnv) (cfg : Config) (st : AgentState)
    (bountyId submission proof : String) : SubmissionResult × AgentState :=
  if cfg.dryRun then
    (⟨bountyId, submission, proof, "dry_run"⟩,
     { st with completedBounties := addId st.completedBounties bountyId })
  else
    match env.submit bountyId cfg.walletAddress submission proof with
    | .ok status =>
      (⟨bountyId, submission, proof, status⟩,
       { st with completedBounties := addId st.completedBounties bountyId })
    | .error e => (⟨bountyId, submission, proof, "error: " ++ e⟩, st)

/-- The proof reference constructed before submitting (line 289). -/
def proofUrl (cfg : Config) (bountyId : String) : String :=
  "https://github.com/" ++ String.mk (cfg.walletAddress.data.take 8) ++ "/bounty-" ++ bountyId

/-- `Number(bounty.reward || 0)` (line 272). -/
def bountyRewardNum (b : Bounty) : JSNum :=
  if b.reward = "" then .fin 0 else jsNumberOfString b.reward

/-- `Number(bounty.reward || 0) / 1e6`, the reward in display units. -/
def rewardDisplay (b : Bounty) : JSNum := jsDiv (bountyRewardNum b) 1000000

/-- The reward-ceiling guard `reward > this.config.maxReward` (line 273). -/
def rewardExceeds (cfg : Config) (b : Bounty) : Bool :=
  jsGT (rewardDisplay b) cfg.maxReward

/-- The evaluation loop of `runCycle` (lines 249-261): evaluate each
bounty in order, collecting the results and adding every bounty judged
unsuitable to the skipped set at once. -/
def evalPhase (env : CycleEnv) (cfg : Config) :
    List Bounty → AgentState → List (Bounty × JValue) × AgentState
  | [], st => ([], st)
  | b :: rest, st =>
    let ev := evaluateBounty env cfg b
    let st1 := if truthy (jget ev "suitable") then st
               else { st with skippedBounties := addId st.skippedBounties b.id }
    let r := evalPhase env cfg rest st1
    ((b, ev) :: r.1, r.2)

/-- The filter of step 3 (lines 264-266):
`e.eval.suitable && e.eval.confidence >= 0.6`. -/
def suitablePick (l : List (Bounty × JValue)) : List (Bounty × JValue) :=
  l.filter (fun e => truthy (jget e.2 "suitable") && jsGE (jget e.2 "confidence") (6 / 10 : Rat))

/-- The body of one iteration of the claim loop (lines 271-291) for a
single bounty: skip on excessive reward (`continue`), attempt the claim
(`continue` on failure), then generate the work plan — whose failure
propagates, aborting the cycle with the state mutated so far — and
submit. -/
def claimStep (env : CycleEnv) (cfg : Config) (st : AgentState) (b : Bounty) :
    AgentState × Except String Unit :=
  if rewardExceeds cfg b then (st, .ok ())
  else
    match claimBounty env cfg st b.id with
    | (false, st1) => (st1, .ok ())
    | (true, st1) =>
      match generateWorkPlan env b with
      | .error e => (st1, .error e)
      | .ok workPlan =>
        ((submitWork env cfg st1 b.id workPlan (proofUrl cfg b.id)).2, .ok ())

/-- The claim loop over the suitable evaluations, in list order; the first
propagated error aborts the remaining iterations. -/
def claimPhase (env : CycleEnv) (cfg : Config) :
    List (Bounty × JValue) → AgentState → AgentState × Except String Unit
  | [], st => (st, .ok ())
  | (b, _) :: rest, st =>
    match claimStep env cfg st b with
    | (st1, .ok _) => claimPhase env cfg rest st1
    | (st1, .error e) => (st1, .error e)

/-- `runCycle` (lines 226-297), returning the state after the cycle along
with `ok` or the propagated error (a listing failure or a work-plan
failure; in the source the state mutations made before a throw persist,
so the state is returned in both cases). -/
def runCycle (env : CycleEnv) (cfg : Config) (st : AgentState) :
    AgentState × Except String Unit :=
  match env.listing with
  | .error e => (st, .error e)
  | .ok remote =>
    let bounties := discoverBounties remote st
    if bounties.isEmpty then (st, .ok ())
    else
      claimPhase env cfg
        (suitablePick (evalPhase env cfg (bounties.take 5) st).1)
        ((evalPhase env cfg (bounties.take 5) st).2)

/-- The list of bounties evaluated by one `runCycle` from state `st`: the
first five discovered ones (`bounties.slice(0, 5)`, line 249). -/
def cycleEvaluated (env : CycleEnv) (cfg : Config) (st : AgentState) : List Bounty :=
  match env.listing with
  | .error _ => []
  | .ok remote => (discoverBounties remote st).take 5

/-- The state between step 2 (evaluate) and step 3 (claim) of a cycle. -/
def midState (env : CycleEnv) (cfg : Config) (st : AgentState) : AgentState :=
  (evalPhase env cfg (cycleEvaluated env cfg st) st).2

/-- `startLoop` (lines 300-322) unrolled for `n` iterations with a
per-iteration environment: while the running flag holds, run a cycle,
catch (and record) its error, and continue.  The inter-cycle sleep has no
observable effect on the state and is not modelled. -/
def loopTrace (cfg : Config) (envs : Nat → CycleEnv) :
    Nat → AgentState → List (Except String Unit) × AgentState
  | 0, st => ([], st)
  | n + 1, st =>
    if st.isRunning then
      ((runCycle (envs 0) cfg st).2 ::
         (loopTrace cfg (fun i => envs (i + 1)) n (runCycle (envs 0) cfg st).1).1,
       (loopTrace cfg (fun i => envs (i + 1)) n (runCycle (envs 0) cfg st).1).2)
    else ([], st)

/-- Modelled from the spec: the "first balanced-looking `{...}` span" of
the reply — from the first opening brace up to the matching closing brace
by depth counting.  (This is the extraction behaviour the specification
ascribes to the engine; the source's regex extraction is `extractSpan`
above.  This definition exists only to compare the two.) -/
def balancedScan : List Char → Nat → List Char → Option (List Char)
  | [], _, _ => none
  | c :: rest, depth, acc =>
    let depth2 := if c = '{' then depth + 1 else if c = '}' then depth - 1 else depth
    if c = '}' ∧ depth2 = 0 then some (c :: acc).reverse
    else balancedScan rest depth2 (c :: acc)

def firstBalancedSpan (s : String) : Option String :=
  (balancedScan (s.data.dropWhile (fun c => c != '{')) 0 []).map String.mk

/-! Basic lemmas about the tracking sets. -/

theorem mem_addId_self (l : List String) (x : String) : x ∈ addId l x := by
  unfold addId; split
  · assumption
  · simp

theorem subset_addId (l : List String) (x : String) : l ⊆ addId l x := by
  unfold addId; split
  · exact fun _ h => h
  · exact fun a h => List.mem_append_left _ h

theorem mem_addId {l : List String} {x y : String} (h : y ∈ addId l x) : y ∈ l ∨ y = x := by
  unfold addId at h; split at h
  · exact Or.inl h
  · rcases List.mem_append.1 h with h1 | h1
    · exact Or.inl h1
    · exact Or.inr (List.mem_singleton.1 h1)

/-! Lemmas about `claimBounty`. -/

theorem claimBounty_dryRun {cfg : Config} (env : CycleEnv) (st : AgentState) (bid : String)
    (hd : cfg.dryRun = true) :
    claimBounty env cfg st bid =
      (true, { st with claimedBounties := addId st.claimedBounties bid }) := by
  simp [claimBounty, hd]

theorem claimBounty_snd_claimed {env cfg st} {bid : String} :
    (claimBounty env cfg st bid).2.claimedBounties = st.claimedBounties ∨
      (claimBounty env cfg st bid).2.claimedBounties = addId st.claimedBounties bid := by
  unfold claimBounty; split
  · exact Or.inr rfl
  · split
    · exact Or.inr rfl
    · exact Or.inl rfl

theorem claimBounty_others {env cfg st} {bid : String} :
    (claimBounty env cfg st bid).2.completedBounties = st.completedBounties ∧
    (claimBounty env cfg st bid).2.skippedBounties = st.skippedBounties ∧
    (claimBounty env cfg st bid).2.isRunning = st.isRunning := by
  unfold claimBounty; split
  · exact ⟨rfl, rfl, rfl⟩
  · split
    · exact ⟨rfl, rfl, rfl⟩
    · exact ⟨rfl, rfl, rfl⟩

theorem claimBounty_claimed_super {env cfg st} {bid : String} :
    st.claimedBounties ⊆ (claimBounty env cfg st bid).2.claimedBounties := by
  rcases @claimBounty_snd_claimed env cfg st bid with h | h <;> rw [h]
  · exact fun _ hx => hx
  · exact subset_addId _ _

theorem claimBounty_claimed_sub {env cfg st} {bid x : String}
    (h : x ∈ (claimBounty env cfg st bid).2.claimedBounties) :
    x ∈ st.claimedBounties ∨ x = bid := by
  rcases @claimBounty_snd_claimed env cfg st bid with h2 | h2 <;> rw [h2] at h
  · exact Or.inl h
  · exact mem_addId h

theorem claimBounty_fail {env : CycleEnv} {cfg : Config} {bid : String} (st : AgentState)
    (hd : cfg.dryRun = false) {e : String}
    (he : env.claim bid cfg.walletAddress = .error e) :
    claimBounty env cfg st bid = (false, st) := by
  simp [claimBounty, hd, he]

theorem claimBounty_true_mem {env cfg st} {bid : String}
    (h : (claimBounty env cfg st bid).1 = true) :
    bid ∈ (claimBounty env cfg st bid).2.claimedBounties := by
  cases hd : cfg.dryRun
  · rcases hc : env.claim bid cfg.walletAddress with e | s
    · rw [claimBounty_fail st hd hc] at h; cases h
    · simp [claimBounty, hd, hc, mem_addId_self]
  · simp [claimBounty, hd, mem_addId_self]

theorem claimBounty_false {env cfg st} {bid : String}
    (h : (claimBounty env cfg st bid).1 = false) :
    (claimBounty env cfg st bid).2 = st ∧ cfg.dryRun = false ∧
      ∃ e, env.claim bid cfg.walletAddress = .error e := by
  cases hd : cfg.dryRun
  · rcases hc : env.claim bid cfg.walletAddress with e | s
    · exact ⟨by rw [claimBounty_fail st hd hc], rfl, e, rfl⟩
    · simp [claimBounty, hd, hc] at h
  · simp [claimBounty, hd] at h

/-! Lemmas about `submitWork`. -/

theorem submitWork_others {env cfg st} {bid sub pf : String} :
    (submitWork env cfg st bid sub pf).2.claimedBounties = st.claimedBounties ∧
    (submitWork env cfg st bid sub pf).2.skippedBounties = st.skippedBounties ∧
    (submitWork env cfg st bid sub pf).2.isRunning = st.isRunning := by
  unfold submitWork; split
  · exact ⟨rfl, rfl, rfl⟩
  · split
    · exact ⟨rfl, rfl, rfl⟩
    · exact ⟨rfl, rfl, rfl⟩

theorem submitWork_snd_completed {env cfg st} {bid sub pf : String} :
    (submitWork env cfg st bid sub pf).2.completedBounties = st.completedBounties ∨
      (submitWork env cfg st bid sub pf).2.completedBounties = addId st.completedBounties bid := by
  unfold submitWork; split
  · exact Or.inr rfl
  · split
    · exact Or.inr rfl
    · exact Or.inl rfl

theorem submitWork_completed_super {env cfg st} {bid sub pf : String} :
    st.completedBounties ⊆ (submitWork env cfg st bid sub pf).2.completedBounties := by
  rcases @submitWork_snd_completed env cfg st bid sub pf with h | h <;> rw [h]
  · exact fun _ hx => hx
  · exact subset_addId _ _

theorem submitWork_completed_sub {env cfg st} {bid sub pf x : String}
    (h : x ∈ (submitWork env cfg st bid sub pf).2.completedBounties) :
    x ∈ st.completedBounties ∨ x = bid := by
  rcases @submitWork_snd_completed env cfg st bid sub pf with h2 | h2 <;> rw [h2] at h
  · exact Or.inl h
  · exact mem_addId h

theorem submitWork_dryRun {env : CycleEnv} {cfg : Config} (st : AgentState)
    (bid sub pf : String) (hd : cfg.dryRun = true) :
    submitWork env cfg st bid sub pf =
      (⟨bid, sub, pf, "dry_run"⟩,
        { st with completedBounties := addId st.completedBounties bid }) := by
  simp [submitWork, hd]

/-! Lemmas about the evaluation phase. -/

/-- Shorthand: the truthiness of the `suitable` field of a bounty's
evaluation. -/
def evalSuitable (env : CycleEnv) (cfg : Config) (b : Bounty) : Bool :=
  truthy (jget (evaluateBounty env cfg b) "suitable")

/-- Shorthand: the confidence threshold test of a bounty's evaluation. -/
def evalConfOk (env : CycleEnv) (cfg : Config) (b : Bounty) : Bool :=
  jsGE (jget (evaluateBounty env cfg b) "confidence") (6 / 10 : Rat)

theorem evalPhase_fst (env : CycleEnv) (cfg : Config) :
    ∀ (l : List Bounty) (st : AgentState),
      (evalPhase env cfg l st).1 = l.map (fun b => (b, evaluateBounty env cfg b))
  | [], _ => rfl
  | b :: rest, st => by
    simp only [evalPhase, List.map_cons]
    rw [evalPhase_fst env cfg rest]

theorem evalPhase_claimed (env : CycleEnv) (cfg : Config) :
    ∀ (l : List Bounty) (st : AgentState),
      (evalPhase env cfg l st).2.claimedBounties = st.claimedBounties
  | [], _ => rfl
  | b :: rest, st => by
    simp only [evalPhase]
    rw [evalPhase_claimed env cfg rest]
    split <;> rfl

theorem evalPhase_completed (env : CycleEnv) (cfg : Config) :
    ∀ (l : List Bounty) (st : AgentState),
      (evalPhase env cfg l st).2.completedBounties = st.completedBounties
  | [], _ => rfl
  | b :: rest, st => by
    simp only [evalPhase]
    rw [evalPhase_completed env cfg rest]
    split <;> rfl

theorem evalPhase_isRunning (env : CycleEnv) (cfg : Config) :
    ∀ (l : List Bounty) (st : AgentState),
      (evalPhase env cfg l st).2.isRunning = st.isRunning
  | [], _ => rfl
  | b :: rest, st => by
    simp only [evalPhase]
    rw [evalPhase_isRunning env cfg rest]
    split <;> rfl

theorem evalPhase_skipped_super (env : CycleEnv) (cfg : Config) :
    ∀ (l : List Bounty) (st : AgentState),
      st.skippedBounties ⊆ (evalPhase env cfg l st).2.skippedBounties
  | [], _ => fun _ h => h
  | b :: rest, st => by
    simp only [evalPhase]
    intro x hx
    refine evalPhase_skipped_super env cfg rest _ ?_
    split
    · exact hx
    · exact subset_addId _ _ hx

theorem evalPhase_skipped_mem (env : CycleEnv) (cfg : Config) :
    ∀ (l : List Bounty) (st : AgentState) (b : Bounty), b ∈ l →
      evalSuitable env cfg b = false →
      b.id ∈ (evalPhase env cfg l st).2.skippedBounties
  | [], _, _, hb, _ => absurd hb (List.not_mem_nil _)
  | b0 :: rest, st, b, hb, hs => by
    rcases List.mem_cons.1 hb with h | h
    · subst h
      simp only [evalPhase]
      refine evalPhase_skipped_super env cfg rest _ ?_
      rw [show truthy (jget (evaluateBounty env cfg b) "suitable") = false from hs]
      simp [mem_addId_self]
    · simp only [evalPhase]
      exact evalPhase_skipped_mem env cfg rest _ b h hs

theorem evalPhase_skipped_sub (env : CycleEnv) (cfg : Config) :
    ∀ (l : List Bounty) (st : AgentState) (x : String),
      x ∈ (evalPhase env cfg l st).2.skippedBounties →
      x ∈ st.skippedBounties ∨ ∃ b ∈ l, b.id = x ∧ evalSuitable env cfg b = false
  | [], _, _, hx => Or.inl hx
  | b0 :: rest, st, x, hx => by
    simp only [evalPhase] at hx
    rcases evalPhase_skipped_sub env cfg rest _ x hx with h | ⟨b, hb, hbx, hbs⟩
    · split at h
      · exact Or.inl h
      · next hs =>
        rcases mem_addId h with h1 | h1
        · exact Or.inl h1
        · exact Or.inr ⟨b0, List.mem_cons_self _ _, h1.symm,
            by simpa [evalSuitable] using hs⟩
    · exact Or.inr ⟨b, List.mem_cons_of_mem _ hb, hbx, hbs⟩

theorem evalPhase_state_of_suitable (env : CycleEnv) (cfg : Config) :
    ∀ (l : List Bounty) (st : AgentState),
      (∀ b ∈ l, evalSuitable env cfg b = true) →
      (evalPhase env cfg l st).2 = st
  | [], _, _ => rfl
  | b0 :: rest, st, h => by
    simp only [evalPhase]
    rw [show truthy (jget (evaluateBounty env cfg b0) "suitable") = true from
      h b0 (List.mem_cons_self _ _)]
    simp only [if_pos]
    exact evalPhase_state_of_suitable env cfg rest st
      (fun b hb => h b (List.mem_cons_of_mem _ hb))

/-! Lemmas about the claim loop. -/

/-- Everything one claim-loop iteration can do to the state: the skipped
set and the running flag are untouched, the claimed and completed sets
only grow, any addition is the bounty's own id and happens only below the
reward ceiling, and the iteration either hit the ceiling, or recorded the
claim, or saw the live claim call fail. -/
theorem claimStep_spec (env : CycleEnv) (cfg : Config) (st : AgentState) (b : Bounty) :
    (claimStep env cfg st b).1.skippedBounties = st.skippedBounties ∧
    (claimStep env cfg st b).1.isRunning = st.isRunning ∧
    st.claimedBounties ⊆ (claimStep env cfg st b).1.claimedBounties ∧
    st.completedBounties ⊆ (claimStep env cfg st b).1.completedBounties ∧
    (∀ x ∈ (claimStep env cfg st b).1.claimedBounties,
        x ∈ st.claimedBounties ∨ (x = b.id ∧ rewardExceeds cfg b = false)) ∧
    (∀ x ∈ (claimStep env cfg st b).1.completedBounties,
        x ∈ st.completedBounties ∨ (x = b.id ∧ rewardExceeds cfg b = false)) ∧
    (rewardExceeds cfg b = true ∨ b.id ∈ (claimStep env cfg st b).1.claimedBounties ∨
        (cfg.dryRun = false ∧ ∃ e, env.claim b.id cfg.walletAddress = .error e)) := by
  by_cases hex : rewardExceeds cfg b = true
  · have hcs : claimStep env cfg st b = (st, .ok ()) := by simp [claimStep, hex]
    rw [hcs]
    exact ⟨rfl, rfl, fun _ h => h, fun _ h => h, fun x hx => Or.inl hx,
      fun x hx => Or.inl hx, Or.inl hex⟩
  · have hex2 : rewardExceeds cfg b = false := by simpa using hex
    rcases hcb : claimBounty env cfg st b.id with ⟨ok1, st1⟩
    have h2 : (claimBounty env cfg st b.id).2 = st1 := by rw [hcb]
    cases ok1
    · obtain ⟨hst, hdry, he⟩ := claimBounty_false (by rw [hcb])
      have hst1 : st1 = st := by rw [← h2, hst]
      have hcs : claimStep env cfg st b = (st1, .ok ()) := by
        simp [claimStep, hex2, hcb]
      rw [hcs, hst1]
      exact ⟨rfl, rfl, fun _ h => h, fun _ h => h, fun x hx => Or.inl hx,
        fun x hx => Or.inl hx, Or.inr (Or.inr ⟨hdry, he⟩)⟩
    · have hmem : b.id ∈ st1.claimedBounties := h2 ▸ claimBounty_true_mem (by rw [hcb])
      have hoth := @claimBounty_others env cfg st b.id
      rw [h2] at hoth
      have hsup : st.claimedBounties ⊆ st1.claimedBounties :=
        h2 ▸ @claimBounty_claimed_super env cfg st b.id
      have hsub : ∀ x ∈ st1.claimedBounties, x ∈ st.claimedBounties ∨ x = b.id :=
        fun x hx => claimBounty_claimed_sub (h2 ▸ hx)
      rcases hwp : generateWorkPlan env b with e | plan
      · have hcs : claimStep env cfg st b = (st1, .error e) := by
          simp [claimStep, hex2, hcb, hwp]
        rw [hcs]
        refine ⟨hoth.2.1, hoth.2.2, hsup, by rw [hoth.1]; exact fun _ h => h,
          ?_, ?_, Or.inr (Or.inl hmem)⟩
        · exact fun x hx => (hsub x hx).imp id (fun h => ⟨h, hex2⟩)
        · rw [hoth.1]; exact fun x hx => Or.inl hx
      · have hcs : claimStep env cfg st b =
            ((submitWork env cfg st1 b.id plan (proofUrl cfg b.id)).2, .ok ()) := by
          simp [claimStep, hex2, hcb, hwp]
        have hsw := @submitWork_others env cfg st1 b.id plan (proofUrl cfg b.id)
        rw [hcs]
        refine ⟨by rw [hsw.2.1, hoth.2.1], by rw [hsw.2.2, hoth.2.2],
          by rw [hsw.1]; exact hsup, ?_, ?_, ?_, Or.inr (Or.inl (by rw [hsw.1]; exact hmem))⟩
        · exact fun x hx => submitWork_completed_super (by rw [hoth.1]; exact hx)
        · rw [hsw.1]
          exact fun x hx => (hsub x hx).imp id (fun h => ⟨h, hex2⟩)
        · intro x hx
          rcases submitWork_completed_sub hx with h | h
          · exact Or.inl (hoth.1 ▸ h)
          · exact Or.inr ⟨h, hex2⟩

theorem claimStep_stable (env : CycleEnv) (cfg : Config) (st : AgentState) (b : Bounty)
    (h : rewardExceeds cfg b = true ∨
      (cfg.dryRun = false ∧ ∃ e, env.claim b.id cfg.walletAddress = .error e)) :
    claimStep env cfg st b = (st, .ok ()) := by
  rcases h with hex | ⟨hd, e, he⟩
  · simp [claimStep, hex]
  · by_cases hex : rewardExceeds cfg b = true
    · simp [claimStep, hex]
    · have hex2 : rewardExceeds cfg b = false := by simpa using hex
      simp [claimStep, hex2, claimBounty_fail st hd he]

theorem claimPhase_skipped (env : CycleEnv) (cfg : Config) :
    ∀ (l : List (Bounty × JValue)) (st : AgentState),
      (claimPhase env cfg l st).1.skippedBounties = st.skippedBounties
  | [], _ => rfl
  | (b0, v0) :: rest, st => by
    have hspec := claimStep_spec env cfg st b0
    rcases hcs : claimStep env cfg st b0 with ⟨st1, r⟩
    rw [hcs] at hspec; dsimp only at hspec
    cases r
    · simp only [claimPhase, hcs]
      exact hspec.1
    · simp only [claimPhase, hcs]
      rw [claimPhase_skipped env cfg rest st1, hspec.1]

theorem claimPhase_isRunning (env : CycleEnv) (cfg : Config) :
    ∀ (l : List (Bounty × JValue)) (st : AgentState),
      (claimPhase env cfg l st).1.isRunning = st.isRunning
  | [], _ => rfl
  | (b0, v0) :: rest, st => by
    have hspec := claimStep_spec env cfg st b0
    rcases hcs : claimStep env cfg st b0 with ⟨st1, r⟩
    rw [hcs] at hspec; dsimp only at hspec
    cases r
    · simp only [claimPhase, hcs]
      exact hspec.2.1
    · simp only [claimPhase, hcs]
      rw [claimPhase_isRunning env cfg rest st1, hspec.2.1]

theorem claimPhase_claimed_super (env : CycleEnv) (cfg : Config) :
    ∀ (l : List (Bounty × JValue)) (st : AgentState),
      st.claimedBounties ⊆ (claimPhase env cfg l st).1.claimedBounties
  | [], _ => fun _ h => h
  | (b0, v0) :: rest, st => by
    have hspec := claimStep_spec env cfg st b0
    rcases hcs : claimStep env cfg st b0 with ⟨st1, r⟩
    rw [hcs] at hspec; dsimp only at hspec
    cases r
    · simp only [claimPhase, hcs]
      exact hspec.2.2.1
    · simp only [claimPhase, hcs]
      exact fun x hx => claimPhase_claimed_super env cfg rest st1 (hspec.2.2.1 hx)

theorem claimPhase_completed_super (env : CycleEnv) (cfg : Config) :
    ∀ (l : List (Bounty × JValue)) (st : AgentState),
      st.completedBounties ⊆ (claimPhase env cfg l st).1.completedBounties
  | [], _ => fun _ h => h
  | (b0, v0) :: rest, st => by
    have hspec := claimStep_spec env cfg st b0
    rcases hcs : claimStep env cfg st b0 with ⟨st1, r⟩
    rw [hcs] at hspec; dsimp only at hspec
    cases r
    · simp only [claimPhase, hcs]
      exact hspec.2.2.2.1
    · simp only [claimPhase, hcs]
      exact fun x hx => claimPhase_completed_super env cfg rest st1 (hspec.2.2.2.1 hx)

theorem claimPhase_claimed_sub (env : CycleEnv) (cfg : Config) :
    ∀ (l : List (Bounty × JValue)) (st : AgentState) (x : String),
      x ∈ (claimPhase env cfg l st).1.claimedBounties →
      x ∈ st.claimedBounties ∨ ∃ p ∈ l, x = p.1.id ∧ rewardExceeds cfg p.1 = false
  | [], _, _, hx => Or.inl hx
  | (b0, v0) :: rest, st, x, hx => by
    have hspec := claimStep_spec env cfg st b0
    rcases hcs : claimStep env cfg st b0 with ⟨st1, r⟩
    rw [hcs] at hspec; dsimp only at hspec
    cases r
    · simp only [claimPhase, hcs] at hx
      rcases hspec.2.2.2.2.1 x hx with h | h
      · exact Or.inl h
      · exact Or.inr ⟨(b0, v0), List.mem_cons_self _ _, h.1, h.2⟩
    · simp only [claimPhase, hcs] at hx
      rcases claimPhase_claimed_sub env cfg rest st1 x hx with h | ⟨p, hp, hpx, hpe⟩
      · rcases hspec.2.2.2.2.1 x h with h1 | h1
        · exact Or.inl h1
        · exact Or.inr ⟨(b0, v0), List.mem_cons_self _ _, h1.1, h1.2⟩
      · exact Or.inr ⟨p, List.mem_cons_of_mem _ hp, hpx, hpe⟩

theorem claimPhase_completed_sub (env : CycleEnv) (cfg : Config) :
    ∀ (l : List (Bounty × JValue)) (st : AgentState) (x : String),
      x ∈ (claimPhase env cfg l st).1.completedBounties →
      x ∈ st.completedBounties ∨ ∃ p ∈ l, x = p.1.id ∧ rewardExceeds cfg p.1 = false
  | [], _, _, hx => Or.inl hx
  | (b0, v0) :: rest, st, x, hx => by
    have hspec := claimStep_spec env cfg st b0
    rcases hcs : claimStep env cfg st b0 with ⟨st1, r⟩
    rw [hcs] at hspec; dsimp only at hspec
    cases r
    · simp only [claimPhase, hcs] at hx
      rcases hspec.2.2.2.2.2.1 x hx with h | h
      · exact Or.inl h
      · exact Or.inr ⟨(b0, v0), List.mem_cons_self _ _, h.1, h.2⟩
    · simp only [claimPhase, hcs] at hx
      rcases claimPhase_completed_sub env cfg rest st1 x hx with h | ⟨p, hp, hpx, hpe⟩
      · rcases hspec.2.2.2.2.2.1 x h with h1 | h1
        · exact Or.inl h1
        · exact Or.inr ⟨(b0, v0), List.mem_cons_self _ _, h1.1, h1.2⟩
      · exact Or.inr ⟨p, List.mem_cons_of_mem _ hp, hpx, hpe⟩

theorem claimPhase_mem (env : CycleEnv) (cfg : Config) :
    ∀ (l : List (Bounty × JValue)) (st : AgentState) (b : Bounty) (v : JValue),
      (b, v) ∈ l → (claimPhase env cfg l st).2 = .ok () →
      rewardExceeds cfg b = true ∨ b.id ∈ (claimPhase env cfg l st).1.claimedBounties ∨
        (cfg.dryRun = false ∧ ∃ e, env.claim b.id cfg.walletAddress = .error e)
  | [], _, _, _, hmem, _ => absurd hmem (List.not_mem_nil _)
  | (b0, v0) :: rest, st, b, v, hmem, hok => by
    have hspec := claimStep_spec env cfg st b0
    rcases hcs : claimStep env cfg st b0 with ⟨st1, r⟩
    rw [hcs] at hspec; dsimp only at hspec
    cases r with
    | error e =>
      simp only [claimPhase, hcs] at hok
      exact absurd hok (by simp)
    | ok u =>
      simp only [claimPhase, hcs] at hok ⊢
      rcases List.mem_cons.1 hmem with h | h
      · injection h with h1 h2
        subst h1
        rcases hspec.2.2.2.2.2.2 with hex | hcl | herr
        · exact Or.inl hex
        · exact Or.inr (Or.inl (claimPhase_claimed_super env cfg rest st1 hcl))
        · exact Or.inr (Or.inr herr)
      · exact claimPhase_mem env cfg rest st1 b v h hok

theorem claimPhase_stable (env : CycleEnv) (cfg : Config) :
    ∀ (l : List (Bounty × JValue)) (st : AgentState),
      (∀ p ∈ l, rewardExceeds cfg p.1 = true ∨
        (cfg.dryRun = false ∧ ∃ e, env.claim p.1.id cfg.walletAddress = .error e)) →
      claimPhase env cfg l st = (st, .ok ())
  | [], _, _ => rfl
  | (b0, v0) :: rest, st, h => by
    have hcs : claimStep env cfg st b0 = (st, .ok ()) :=
      claimStep_stable env cfg st b0 (h (b0, v0) (List.mem_cons_self _ _))
    simp only [claimPhase, hcs]
    exact claimPhase_stable env cfg rest st (fun p hp => h p (List.mem_cons_of_mem _ hp))

/-! Lemmas about discovery and `runCycle`. -/

theorem mem_listOpen {remote : List Bounty} {b : Bounty} (h : b ∈ listOpenBounties remote) :
    b ∈ remote ∧ b.title ≠ "" ∧ b.status = "open" := by
  simp only [listOpenBounties, listBounties, List.mem_filter] at h
  exact ⟨h.1.1, by simpa using h.1.2, by simpa using h.2⟩

theorem mem_discover {remote : List Bounty} {st : AgentState} {b : Bounty} :
    b ∈ discoverBounties remote st ↔
      b ∈ listOpenBounties remote ∧ b.id ∉ st.claimedBounties ∧
        b.id ∉ st.completedBounties ∧ b.id ∉ st.skippedBounties := by
  simp [discoverBounties, List.mem_filter, and_assoc]

theorem cycleEvaluated_eq {env : CycleEnv} {remote : List Bounty} (cfg : Config)
    (st : AgentState) (hl : env.listing = .ok remote) :
    cycleEvaluated env cfg st = (discoverBounties remote st).take 5 := by
  simp [cycleEvaluated, hl]

theorem mem_cycleEvaluated_discover {env : CycleEnv} {cfg : Config} {st : AgentState}
    {remote : List Bounty} {b : Bounty} (hl : env.listing = .ok remote)
    (hb : b ∈ cycleEvaluated env cfg st) : b ∈ discoverBounties remote st := by
  rw [cycleEvaluated_eq cfg st hl] at hb
  exact List.mem_of_mem_take hb

theorem runCycle_listing_error {env : CycleEnv} {cfg : Config} {st : AgentState} {e : String}
    (hl : env.listing = .error e) : runCycle env cfg st = (st, .error e) := by
  simp [runCycle, hl]

theorem runCycle_empty {env : CycleEnv} {cfg : Config} {st : AgentState} {remote : List Bounty}
    (hl : env.listing = .ok remote) (he : discoverBounties remote st = []) :
    runCycle env cfg st = (st, .ok ()) := by
  simp [runCycle, hl, he]

theorem runCycle_eq {env : CycleEnv} {cfg : Config} {st : AgentState} {remote : List Bounty}
    (hl : env.listing = .ok remote) (hne : discoverBounties remote st ≠ []) :
    runCycle env cfg st =
      claimPhase env cfg
        (suitablePick (evalPhase env cfg ((discoverBounties remote st).take 5) st).1)
        ((evalPhase env cfg ((discoverBounties remote st).take 5) st).2) := by
  simp only [runCycle, hl]
  rw [if_neg (by simpa [List.isEmpty_iff] using hne)]

theorem runCycle_isRunning (env : CycleEnv) (cfg : Config) (st : AgentState) :
    (runCycle env cfg st).1.isRunning = st.isRunning := by
  rcases hl : env.listing with e | remote
  · rw [runCycle_listing_error hl]
  · by_cases he : discoverBounties remote st = []
    · rw [runCycle_empty hl he]
    · rw [runCycle_eq hl he, claimPhase_isRunning, evalPhase_isRunning]

theorem runCycle_skipped_super (env : CycleEnv) (cfg : Config) (st : AgentState) :
    st.skippedBounties ⊆ (runCycle env cfg st).1.skippedBounties := by
  rcases hl : env.listing with e | remote
  · rw [runCycle_listing_error hl]; exact fun _ h => h
  · by_cases he : discoverBounties remote st = []
    · rw [runCycle_empty hl he]; exact fun _ h => h
    · rw [runCycle_eq hl he]
      intro x hx
      rw [claimPhase_skipped]
      exact evalPhase_skipped_super env cfg _ st hx

theorem runCycle_claimed_super (env : CycleEnv) (cfg : Config) (st : AgentState) :
    st.claimedBounties ⊆ (runCycle env cfg st).1.claimedBounties := by
  rcases hl : env.listing with e | remote
  · rw [runCycle_listing_error hl]; exact fun _ h => h
  · by_cases he : discoverBounties remote st = []
    · rw [runCycle_empty hl he]; exact fun _ h => h
    · rw [runCycle_eq hl he]
      intro x hx
      refine claimPhase_claimed_super env cfg _ _ ?_
      rw [evalPhase_claimed]
      exact hx

theorem runCycle_completed_super (env : CycleEnv) (cfg : Config) (st : AgentState) :
    st.completedBounties ⊆ (runCycle env cfg st).1.completedBounties := by
  rcases hl : env.listing with e | remote
  · rw [runCycle_listing_error hl]; exact fun _ h => h
  · by_cases he : discoverBounties remote st = []
    · rw [runCycle_empty hl he]; exact fun _ h => h
    · rw [runCycle_eq hl he]
      intro x hx
      refine claimPhase_completed_super env cfg _ _ ?_
      rw [evalPhase_completed]
      exact hx

theorem runCycle_skipped_sub (env : CycleEnv) (cfg : Config) (st : AgentState) (x : String)
    (hx : x ∈ (runCycle env cfg st).1.skippedBounties) :
    x ∈ st.skippedBounties ∨
      ∃ b ∈ cycleEvaluated env cfg st, b.id = x ∧ evalSuitable env cfg b = false := by
  rcases hl : env.listing with e | remote
  · rw [runCycle_listing_error hl] at hx; exact Or.inl hx
  · by_cases he : discoverBounties remote st = []
    · rw [runCycle_empty hl he] at hx; exact Or.inl hx
    · rw [runCycle_eq hl he, claimPhase_skipped] at hx
      rcases evalPhase_skipped_sub env cfg _ st x hx with h | ⟨b, hb, hbx, hbs⟩
      · exact Or.inl h
      · exact Or.inr ⟨b, by rw [cycleEvaluated_eq cfg st hl]; exact hb, hbx, hbs⟩

theorem runCycle_claimed_sub (env : CycleEnv) (cfg : Config) (st : AgentState) (x : String)
    (hx : x ∈ (runCycle env cfg st).1.claimedBounties) :
    x ∈ st.claimedBounties ∨
      ∃ b ∈ cycleEvaluated env cfg st, b.id = x ∧ evalSuitable env cfg b = true ∧
        evalConfOk env cfg b = true ∧ rewardExceeds cfg b = false := by
  rcases hl : env.listing with e | remote
  · rw [runCycle_listing_error hl] at hx; exact Or.inl hx
  · by_cases he : discoverBounties remote st = []
    · rw [runCycle_empty hl he] at hx; exact Or.inl hx
    · rw [runCycle_eq hl he] at hx
      rcases claimPhase_claimed_sub env cfg _ _ x hx with h | ⟨p, hp, hpx, hpe⟩
      · rw [evalPhase_claimed] at h; exact Or.inl h
      · rw [suitablePick, List.mem_filter, evalPhase_fst, List.mem_map] at hp
        obtain ⟨⟨b, hb, rfl⟩, hcond⟩ := hp
        rw [Bool.and_eq_true] at hcond
        exact Or.inr ⟨b, by rw [cycleEvaluated_eq cfg st hl]; exact hb, hpx.symm,
          hcond.1, hcond.2, hpe⟩

theorem runCycle_completed_sub (env : CycleEnv) (cfg : Config) (st : AgentState) (x : String)
    (hx : x ∈ (runCycle env cfg st).1.completedBounties) :
    x ∈ st.completedBounties ∨
      ∃ b ∈ cycleEvaluated env cfg st, b.id = x ∧ evalSuitable env cfg b = true ∧
        evalConfOk env cfg b = true ∧ rewardExceeds cfg b = false := by
  rcases hl : env.listing with e | remote
  · rw [runCycle_listing_error hl] at hx; exact Or.inl hx
  · by_cases he : discoverBounties remote st = []
    · rw [runCycle_empty hl he] at hx; exact Or.inl hx
    · rw [runCycle_eq hl he] at hx
      rcases claimPhase_completed_sub env cfg _ _ x hx with h | ⟨p, hp, hpx, hpe⟩
      · rw [evalPhase_completed] at h; exact Or.inl h
      · rw [suitablePick, List.mem_filter, evalPhase_fst, List.mem_map] at hp
        obtain ⟨⟨b, hb, rfl⟩, hcond⟩ := hp
        rw [Bool.and_eq_true] at hcond
        exact Or.inr ⟨b, by rw [cycleEvaluated_eq cfg st hl]; exact hb, hpx.symm,
          hcond.1, hcond.2, hpe⟩

/-- A cycle in which every discovered bounty evaluates as suitable but is
kept unclaimed — by the confidence threshold, the reward ceiling, or a
failing live claim call — changes nothing. -/
theorem runCycle_stable (env : CycleEnv) (cfg : Config) (st : AgentState) (remote : List Bounty)
    (hl : env.listing = .ok remote)
    (hall : ∀ b ∈ discoverBounties remote st,
      evalSuitable env cfg b = true ∧
      (evalConfOk env cfg b = false ∨ rewardExceeds cfg b = true ∨
        (cfg.dryRun = false ∧ ∃ e, env.claim b.id cfg.walletAddress = .error e))) :
    runCycle env cfg st = (st, .ok ()) := by
  by_cases he : discoverBounties remote st = []
  · exact runCycle_empty hl he
  · rw [runCycle_eq hl he]
    have hsuit : ∀ b ∈ (discoverBounties remote st).take 5, evalSuitable env cfg b = true :=
      fun b hb => (hall b (List.mem_of_mem_take hb)).1
    rw [evalPhase_state_of_suitable env cfg _ st hsuit]
    apply claimPhase_stable
    intro p hp
    rw [suitablePick, List.mem_filter, evalPhase_fst, List.mem_map] at hp
    obtain ⟨⟨b, hb, rfl⟩, hcond⟩ := hp
    rcases (hall b (List.mem_of_mem_take hb)).2 with hc | h2
    · rw [Bool.and_eq_true] at hcond
      have hcond2 := hcond.2
      rw [show jsGE (jget (evaluateBounty env cfg b) "confidence") (6 / 10 : Rat) = false
        from hc] at hcond2
      cases hcond2
    · exact h2

/-- A bounty is only set to skipped, within one cycle, because its
evaluation's `suitable` field was falsy; conversely every bounty evaluated
as unsuitable ends that cycle in the skipped set. -/
theorem runCycle_skips_unsuitable (env : CycleEnv) (cfg : Config) (st : AgentState)
    (remote : List Bounty) (b : Bounty) (hl : env.listing = .ok remote)
    (hb : b ∈ cycleEvaluated env cfg st) (hun : evalSuitable env cfg b = false) :
    b.id ∈ (runCycle env cfg st).1.skippedBounties := by
  by_cases he : discoverBounties remote st = []
  · rw [cycleEvaluated_eq cfg st hl, he] at hb
    simp at hb
  · rw [runCycle_eq hl he, claimPhase_skipped]
    rw [cycleEvaluated_eq cfg st hl] at hb
    exact evalPhase_skipped_mem env cfg _ st b hb hun

/-! Lemmas about the regex span extraction. -/

theorem dropWhile_append_all {p : Char → Bool} :
    ∀ (l1 l2 : List Char), (∀ c ∈ l1, p c = true) →
      (l1 ++ l2).dropWhile p = l2.dropWhile p
  | [], _, _ => rfl
  | a :: l1, l2, h => by
    rw [List.cons_append, List.dropWhile_cons, if_pos (h a (List.mem_cons_self _ _)),
        dropWhile_append_all l1 l2 (fun c hc => h c (List.mem_cons_of_mem _ hc))]

/-- The regex span of a text containing one brace-delimited block, with no
opening brace before it and no closing brace after it, is exactly that
block. -/
theorem extractSpan_first_last {pre mid post : List Char}
    (hpre : ∀ c ∈ pre, c ≠ '{') (hpost : ∀ c ∈ post, c ≠ '}') :
    extractSpan (pre ++ ('{' :: mid ++ ['}']) ++ post) = some ('{' :: mid ++ ['}']) := by
  have hstep1 : List.dropWhile (fun c => c != '{') (pre ++ ('{' :: mid ++ ['}']) ++ post)
      = '{' :: (mid ++ ['}'] ++ post) := by
    rw [List.append_assoc, dropWhile_append_all pre _ (fun c hc => by simpa using hpre c hc),
        show (('{' :: mid ++ ['}']) ++ post : List Char) = '{' :: (mid ++ ['}'] ++ post) from
          by simp,
        List.dropWhile_cons]
    simp
  have hstep2 : List.dropWhile (fun c => c != '}') (('{' :: (mid ++ ['}'] ++ post)).reverse)
      = '}' :: (mid.reverse ++ ['{']) := by
    rw [show ('{' :: (mid ++ ['}'] ++ post) : List Char) = ('{' :: mid ++ ['}']) ++ post from
          by simp,
        List.reverse_append,
        dropWhile_append_all post.reverse _ (fun c hc => by
          simpa using hpost c (List.mem_reverse.1 hc)),
        show ('{' :: mid ++ ['}'] : List Char).reverse = '}' :: (mid.reverse ++ ['{']) from
          by simp,
        List.dropWhile_cons]
    simp
  simp only [extractSpan, hstep1, hstep2]
  simp

/-! Concrete fixtures used by the witnesses and counterexamples below. -/

/-- An environment whose oracle always gives the same reply and whose
claim and submit calls always succeed. -/
def mkEnv (listing : Except String (List Bounty)) (reply : Except String String) : CycleEnv :=
  { listing := listing
    chat := fun _ => reply
    claim := fun _ _ => .ok "claimed"
    submit := fun _ _ _ _ => .ok "submitted" }

def wCfg : Config :=
  mkConfig { openRouterApiKey := "key", walletAddress := "0xabc123def456", dryRun := some true }

def wBounty (i rew : String) : Bounty :=
  { id := i, title := "Fix bug", description := "fix the parser", status := "open",
    reward := rew, rewardFormatted := "50 USDC", tags := ["typescript"] }

/-- An oracle reply carrying a well-formed suitable evaluation. -/
def wReplyOk : String :=
  "\x7b\"suitable\": true, \"confidence\": 0.8, \"reasoning\": \"match\", \"estimatedEffort\": \"low\"\x7d"

/-- An oracle reply carrying a well-formed unsuitable evaluation. -/
def wReplyNo : String := "\x7b\"suitable\": false\x7d"

/-! Claim theorems. -/

/-- C2: `evaluateBounty` never propagates a failure to its caller: whenever
the oracle call fails (network/HTTP error or non-2xx status, modelled as an
`error` outcome of the chat round trip) or the reply contains no
extractable JSON span, it returns the safe default `EvaluationResult` with
`suitable = false`, `confidence = 0`, `estimatedEffort = "high"` and a
reasoning string describing the call or parse failure. -/
theorem evaluateBounty_fail_closed (env : CycleEnv) (cfg : Config) (b : Bounty) :
    (∀ e, env.chat (evalMessages cfg b) = .error e →
      evaluateBounty env cfg b = evalFailure ("Evaluation error: " ++ e)) ∧
    (∀ r, env.chat (evalMessages cfg b) = .ok r → extractJsonSpan r = none →
      evaluateBounty env cfg b = evalFailure "Failed to parse AI evaluation") ∧
    (∀ msg, truthy (jget (evalFailure msg) "suitable") = false ∧
      jget (evalFailure msg) "confidence" = .num 0 ∧
      jget (evalFailure msg) "estimatedEffort" = .str "high" ∧
      jget (evalFailure msg) "reasoning" = .str msg) := by
  refine ⟨?_, ?_, ?_⟩
  · intro e he
    simp [evaluateBounty, he]
  · intro r hr hx
    simp [evaluateBounty, hr, hx]
  · intro msg
    exact ⟨rfl, rfl, rfl, rfl⟩

def w2Env : CycleEnv := mkEnv (.ok []) (.error "network down")

theorem evaluateBounty_fail_closed_witness :
    w2Env.chat (evalMessages wCfg (wBounty "1" "50000000")) = .error "network down" ∧
    evaluateBounty w2Env wCfg (wBounty "1" "50000000") =
      evalFailure "Evaluation error: network down" :=
  ⟨rfl, (evaluateBounty_fail_closed w2Env wCfg (wBounty "1" "50000000")).1 "network down" rfl⟩

/-- C6: in dry-run mode the claim and submit operations consult no network
outcome (the result is the same under every environment), yet the claim
step records the id in the claimed set and the submit step records it in
the completed set exactly as on the live path, and the submit result's
status is `"dry_run"`. -/
theorem dry_run_claim_submit_roundtrip (env : CycleEnv) (cfg : Config) (st : AgentState)
    (bid sub pf : String) (hd : cfg.dryRun = true) :
    claimBounty env cfg st bid =
      (true, { st with claimedBounties := addId st.claimedBounties bid }) ∧
    submitWork env cfg (claimBounty env cfg st bid).2 bid sub pf =
      (⟨bid, sub, pf, "dry_run"⟩,
        { st with claimedBounties := addId st.claimedBounties bid,
                  completedBounties := addId st.completedBounties bid }) ∧
    bid ∈ (submitWork env cfg (claimBounty env cfg st bid).2 bid sub pf).2.claimedBounties ∧
    bid ∈ (submitWork env cfg (claimBounty env cfg st bid).2 bid sub pf).2.completedBounties ∧
    (submitWork env cfg (claimBounty env cfg st bid).2 bid sub pf).1.status = "dry_run" ∧
    (∀ env2 : CycleEnv, claimBounty env2 cfg st bid = claimBounty env cfg st bid ∧
      submitWork env2 cfg (claimBounty env cfg st bid).2 bid sub pf =
        submitWork env cfg (claimBounty env cfg st bid).2 bid sub pf) := by
  have h1 := claimBounty_dryRun env st bid hd
  have h2 : (claimBounty env cfg st bid).2 =
      { st with claimedBounties := addId st.claimedBounties bid } := by rw [h1]
  refine ⟨h1, ?_, ?_, ?_, ?_, ?_⟩
  · rw [h2, submitWork_dryRun _ _ _ _ hd]
  · rw [h2, submitWork_dryRun _ _ _ _ hd]
    exact mem_addId_self _ _
  · rw [h2, submitWork_dryRun _ _ _ _ hd]
    exact mem_addId_self _ _
  · rw [h2, submitWork_dryRun _ _ _ _ hd]
  · intro env2
    exact ⟨by rw [claimBounty_dryRun env2 st bid hd, h1],
      by rw [submitWork_dryRun _ _ _ _ hd, submitWork_dryRun _ _ _ _ hd]⟩

def w6Env : CycleEnv := mkEnv (.ok []) (.ok "")

theorem dry_run_claim_submit_roundtrip_witness :
    wCfg.dryRun = true ∧
    (submitWork w6Env wCfg (claimBounty w6Env wCfg initialState "7").2 "7" "s" "p").1.status
      = "dry_run" ∧
    "7" ∈ (submitWork w6Env wCfg (claimBounty w6Env wCfg initialState "7").2 "7" "s" "p").2.claimedBounties ∧
    "7" ∈ (submitWork w6Env wCfg (claimBounty w6Env wCfg initialState "7").2 "7" "s" "p").2.completedBounties :=
  ⟨rfl,
   (dry_run_claim_submit_roundtrip w6Env wCfg initialState "7" "s" "p" rfl).2.2.2.2.1,
   (dry_run_claim_submit_roundtrip w6Env wCfg initialState "7" "s" "p" rfl).2.2.1,
   (dry_run_claim_submit_roundtrip w6Env wCfg initialState "7" "s" "p" rfl).2.2.2.1⟩

theorem loopTrace_length (cfg : Config) :
    ∀ (n : Nat) (envs : Nat → CycleEnv) (st : AgentState), st.isRunning = true →
      ((loopTrace cfg envs n st).1).length = n
  | 0, _, _, _ => rfl
  | n + 1, envs, st, hrun => by
    simp only [loopTrace, hrun, if_pos]
    rw [List.length_cons,
      loopTrace_length cfg n (fun i => envs (i + 1)) ((runCycle (envs 0) cfg st).1)
        (by rw [runCycle_isRunning]; exact hrun)]

/-- C7: while the agent is Running, every scheduled loop iteration executes
its cycle — the trace of `n` iterations always has exactly `n` recorded
cycle outcomes, under every per-cycle environment, including ones whose
cycles throw — and a cycle (erroring or not) leaves the running flag set,
so the loop proceeds to the next iteration; a cycle error never terminates
the loop. -/
theorem cycle_error_does_not_stop_loop (cfg : Config) (envs : Nat → CycleEnv) (n : Nat)
    (st : AgentState) (hrun : st.isRunning = true) :
    ((loopTrace cfg envs n st).1).length = n ∧
    (runCycle (envs 0) cfg st).1.isRunning = true ∧
    loopTrace cfg envs (n + 1) st =
      ((runCycle (envs 0) cfg st).2 ::
          (loopTrace cfg (fun i => envs (i + 1)) n (runCycle (envs 0) cfg st).1).1,
        (loopTrace cfg (fun i => envs (i + 1)) n (runCycle (envs 0) cfg st).1).2) := by
  refine ⟨loopTrace_length cfg n envs st hrun, ?_, ?_⟩
  · rw [runCycle_isRunning]; exact hrun
  · simp only [loopTrace, hrun, if_pos]

def w7Env : CycleEnv := mkEnv (.error "boom") (.ok "")

def w7State : AgentState := { initialState with isRunning := true }

theorem cycle_error_does_not_stop_loop_witness :
    (runCycle w7Env wCfg w7State).2 = .error "boom" ∧
    ((loopTrace wCfg (fun _ => w7Env) 3 w7State).1).length = 3 ∧
    (runCycle w7Env wCfg w7State).1.isRunning = true :=
  ⟨rfl, (cycle_error_does_not_stop_loop wCfg (fun _ => w7Env) 3 w7State rfl).1,
   (cycle_error_does_not_stop_loop wCfg (fun _ => w7Env) 3 w7State rfl).2.1⟩

/-- C8: across any cycle the three tracking sets grow monotonically — an id
present in a set before the cycle is present after it — and a bounty whose
id is already in any of the three sets is excluded from the cycle's
evaluated batch, so it is never re-evaluated. -/
theorem tracking_sets_monotone_no_reeval (env : CycleEnv) (cfg : Config) (st : AgentState) :
    st.claimedBounties ⊆ (runCycle env cfg st).1.claimedBounties ∧
    st.completedBounties ⊆ (runCycle env cfg st).1.completedBounties ∧
    st.skippedBounties ⊆ (runCycle env cfg st).1.skippedBounties ∧
    (∀ bid, (bid ∈ st.claimedBounties ∨ bid ∈ st.completedBounties ∨
        bid ∈ st.skippedBounties) →
      ∀ b ∈ cycleEvaluated env cfg st, b.id ≠ bid) := by
  refine ⟨runCycle_claimed_super env cfg st, runCycle_completed_super env cfg st,
    runCycle_skipped_super env cfg st, ?_⟩
  intro bid hbid b hb hbe
  rcases hl : env.listing with e | remote
  · simp [cycleEvaluated, hl] at hb
  · have hd := mem_discover.1 (mem_cycleEvaluated_discover hl hb)
    subst hbe
    rcases hbid with h | h | h
    · exact hd.2.1 h
    · exact hd.2.2.1 h
    · exact hd.2.2.2 h

def w8State : AgentState :=
  { claimedBounties := ["1"], completedBounties := [], skippedBounties := [],
    isRunning := false }

def w8Env : CycleEnv := mkEnv (.ok [wBounty "1" "50000000", wBounty "2" "50000000"]) (.ok wReplyNo)

theorem tracking_sets_monotone_no_reeval_witness :
    "1" ∈ (runCycle w8Env wCfg w8State).1.claimedBounties ∧
    (wBounty "2" "50000000").id ≠ "1" :=
  ⟨(tracking_sets_monotone_no_reeval w8Env wCfg w8State).1 (by decide),
   (tracking_sets_monotone_no_reeval w8Env wCfg w8State).2.2.2 "1" (Or.inl (by decide))
     (wBounty "2" "50000000") (by decide)⟩

/-- C9: the constructor replaces every falsy configured value by the
default — a zero `maxReward` becomes 100, a zero `pollInterval` becomes
300000 ms, an empty `model` becomes the default model — and consequently a
reward ceiling of zero can never be configured. -/
theorem falsy_config_fields_replaced_by_defaults (c : AgentConfig) :
    (c.maxReward = some (.fin 0) → (mkConfig c).maxReward = .fin 100) ∧
    (c.pollInterval = some (.fin 0) → (mkConfig c).pollInterval = .fin 300000) ∧
    (c.model = some "" → (mkConfig c).model = DEFAULT_MODEL) ∧
    (mkConfig c).maxReward ≠ .fin 0 := by
  refine ⟨?_, ?_, ?_, ?_⟩
  · intro h; simp [mkConfig, h, jsFalsyNum]
  · intro h; simp [mkConfig, h, jsFalsyNum]
  · intro h; simp [mkConfig, h]
  · rcases hm : c.maxReward with _ | v
    · simp [mkConfig, hm]
    · by_cases hf : jsFalsyNum v = true
      · simp [mkConfig, hm, hf]
      · have hf2 : jsFalsyNum v = false := by simpa using hf
        simp only [mkConfig, hm, hf2, Bool.false_eq_true, if_false]
        intro hv
        rw [hv] at hf2
        simp [jsFalsyNum] at hf2

def w9Input : AgentConfig :=
  { openRouterApiKey := "k", walletAddress := "w", model := some "",
    maxReward := some (.fin 0), pollInterval := some (.fin 0) }

theorem falsy_config_fields_replaced_by_defaults_witness :
    (mkConfig w9Input).maxReward = .fin 100 ∧
    (mkConfig w9Input).pollInterval = .fin 300000 ∧
    (mkConfig w9Input).model = DEFAULT_MODEL ∧
    (mkConfig w9Input).maxReward ≠ .fin 0 :=
  ⟨(falsy_config_fields_replaced_by_defaults w9Input).1 rfl,
   (falsy_config_fields_replaced_by_defaults w9Input).2.1 rfl,
   (falsy_config_fields_replaced_by_defaults w9Input).2.2.1 rfl,
   (falsy_config_fields_replaced_by_defaults w9Input).2.2.2⟩

/-- C5: an evaluated bounty judged suitable with confidence at least 0.6
whose reward in display units (`reward / 1e6`) exceeds the configured
ceiling is not claimed: after the cycle its id is in none of the claimed,
completed, or skipped sets, and the bounty is discovered again from the
resulting state, so it stays eligible for re-evaluation.  (The remote
listing is assumed to carry distinct ids.) -/
theorem excessive_reward_never_claimed (env : CycleEnv) (cfg : Config) (st : AgentState)
    (remote : List Bounty) (b : Bounty)
    (hl : env.listing = .ok remote)
    (hnd : (remote.map Bounty.id).Nodup)
    (hb : b ∈ cycleEvaluated env cfg st)
    (hsuit : evalSuitable env cfg b = true)
    (hconf : evalConfOk env cfg b = true)
    (hexc : rewardExceeds cfg b = true) :
    b.id ∉ (runCycle env cfg st).1.claimedBounties ∧
    b.id ∉ (runCycle env cfg st).1.completedBounties ∧
    b.id ∉ (runCycle env cfg st).1.skippedBounties ∧
    b ∈ discoverBounties remote ((runCycle env cfg st).1) := by
  have hd := mem_discover.1 (mem_cycleEvaluated_discover hl hb)
  have hinj : ∀ b2 ∈ cycleEvaluated env cfg st, b2.id = b.id → b2 = b := by
    intro b2 hb2 heq
    exact List.inj_on_of_nodup_map hnd
      (mem_listOpen (mem_discover.1 (mem_cycleEvaluated_discover hl hb2)).1).1
      (mem_listOpen hd.1).1 heq
  have hnc : b.id ∉ (runCycle env cfg st).1.claimedBounties := by
    intro hx
    rcases runCycle_claimed_sub env cfg st b.id hx with h | ⟨b2, hb2, hbeq, _, _, hbe⟩
    · exact hd.2.1 h
    · rw [hinj b2 hb2 hbeq, hexc] at hbe
      cases hbe
  have hnm : b.id ∉ (runCycle env cfg st).1.completedBounties := by
    intro hx
    rcases runCycle_completed_sub env cfg st b.id hx with h | ⟨b2, hb2, hbeq, _, _, hbe⟩
    · exact hd.2.2.1 h
    · rw [hinj b2 hb2 hbeq, hexc] at hbe
      cases hbe
  have hns : b.id ∉ (runCycle env cfg st).1.skippedBounties := by
    intro hx
    rcases runCycle_skipped_sub env cfg st b.id hx with h | ⟨b2, hb2, hbeq, hbs⟩
    · exact hd.2.2.2 h
    · rw [hinj b2 hb2 hbeq, hsuit] at hbs
      cases hbs
  exact ⟨hnc, hnm, hns, mem_discover.2 ⟨hd.1, hnc, hnm, hns⟩⟩

def w5Cfg : Config :=
  mkConfig
    { openRouterApiKey := "key", walletAddress := "0xabc123def456",
      dryRun := some true, maxReward := some (.fin 10) }

def w5Bounty : Bounty := wBounty "3" "50000000"

def w5Env : CycleEnv := mkEnv (.ok [w5Bounty]) (.ok wReplyOk)

theorem excessive_reward_never_claimed_witness :
    rewardExceeds w5Cfg w5Bounty = true ∧
    evalSuitable w5Env w5Cfg w5Bounty = true ∧
    w5Bounty.id ∉ (runCycle w5Env w5Cfg initialState).1.claimedBounties ∧
    w5Bounty ∈ discoverBounties [w5Bounty] ((runCycle w5Env w5Cfg initialState).1) :=
  ⟨by with_unfolding_all decide, by with_unfolding_all decide,
   (excessive_reward_never_claimed w5Env w5Cfg initialState [w5Bounty] w5Bounty rfl
     (by decide) (by decide) (by with_unfolding_all decide)
     (by with_unfolding_all decide) (by with_unfolding_all decide)).1,
   (excessive_reward_never_claimed w5Env w5Cfg initialState [w5Bounty] w5Bounty rfl
     (by decide) (by decide) (by with_unfolding_all decide)
     (by with_unfolding_all decide) (by with_unfolding_all decide)).2.2.2⟩

/-- C10: a bounty whose reward string does not convert to a number makes
`Number(reward)/1e6` NaN, and `NaN > maxReward` is false for every
ceiling, so the reward guard never rejects it; if its evaluation is
suitable with confidence at least 0.6, the claim step is attempted (in
dry-run mode the id lands in the claimed set) regardless of the configured
ceiling. -/
theorem unparsable_reward_bypasses_ceiling (cfg : Config) (b : Bounty)
    (hnan : jsNumberOfString b.reward = .nan) :
    (∀ m : JSNum, jsGT (rewardDisplay b) m = false) ∧
    rewardExceeds cfg b = false ∧
    (∀ (env : CycleEnv) (st : AgentState), env.listing = .ok [b] →
      b.status = "open" → b.title ≠ "" →
      b.id ∉ st.claimedBounties → b.id ∉ st.completedBounties → b.id ∉ st.skippedBounties →
      evalSuitable env cfg b = true → evalConfOk env cfg b = true → cfg.dryRun = true →
      b.id ∈ (runCycle env cfg st).1.claimedBounties) := by
  have hne0 : b.reward ≠ "" := by
    intro h
    rw [h] at hnan
    exact absurd hnan (by decide)
  have hnum : bountyRewardNum b = .nan := by rw [bountyRewardNum, if_neg hne0, hnan]
  have hdisp : rewardDisplay b = .nan := by rw [rewardDisplay, hnum]; rfl
  have hjgt : ∀ m : JSNum, jsGT (rewardDisplay b) m = false := by
    intro m; rw [hdisp]; cases m <;> rfl
  refine ⟨hjgt, hjgt cfg.maxReward, ?_⟩
  intro env st hl hst htitle hc1 hc2 hc3 hsuit hconf hdry
  have ht : (b.title != "") = true := by simpa using htitle
  have hs : (b.status == "open") = true := by simpa using hst
  have hdisc : discoverBounties [b] st = [b] := by
    simp [discoverBounties, listOpenBounties, listBounties, ht, hs, hc1, hc2, hc3]
  have hne : discoverBounties [b] st ≠ [] := by rw [hdisc]; simp
  rw [runCycle_eq hl hne, hdisc]
  have htake : ([b] : List Bounty).take 5 = [b] := rfl
  rw [htake]
  have hsuit2 : ∀ x ∈ ([b] : List Bounty), evalSuitable env cfg x = true := by
    intro x hx
    rw [List.mem_singleton.1 hx]
    exact hsuit
  rw [evalPhase_state_of_suitable env cfg [b] st hsuit2, evalPhase_fst env cfg [b] st]
  have hpick : suitablePick ([b].map (fun x => (x, evaluateBounty env cfg x)))
      = [(b, evaluateBounty env cfg b)] := by
    simp only [List.map, suitablePick, List.filter]
    rw [show truthy (jget (evaluateBounty env cfg b) "suitable") = true from hsuit,
        show jsGE (jget (evaluateBounty env cfg b) "confidence") (6 / 10 : Rat) = true
          from hconf]
    rfl
  rw [hpick]
  have hcb := claimBounty_dryRun env st b.id hdry
  have hexc2 : rewardExceeds cfg b = false := hjgt cfg.maxReward
  rcases hwp : generateWorkPlan env b with e | plan
  · have hcs : claimStep env cfg st b =
        ({ st with claimedBounties := addId st.claimedBounties b.id }, .error e) := by
      simp [claimStep, hexc2, hcb, hwp]
    simp only [claimPhase, hcs]
    exact mem_addId_self _ _
  · have hcs : claimStep env cfg st b =
        ((submitWork env cfg { st with claimedBounties := addId st.claimedBounties b.id }
            b.id plan (proofUrl cfg b.id)).2, .ok ()) := by
      simp [claimStep, hexc2, hcb, hwp]
    simp only [claimPhase, hcs]
    rw [(submitWork_others).1]
    exact mem_addId_self _ _

def w10Bounty : Bounty := wBounty "9" "not-a-number"

def w10Env : CycleEnv := mkEnv (.ok [w10Bounty]) (.ok wReplyOk)

theorem unparsable_reward_bypasses_ceiling_witness :
    jsNumberOfString w10Bounty.reward = .nan ∧
    rewardExceeds w5Cfg w10Bounty = false ∧
    w10Bounty.id ∈ (runCycle w10Env w5Cfg initialState).1.claimedBounties :=
  ⟨by decide,
   (unparsable_reward_bypasses_ceiling w5Cfg w10Bounty (by decide)).2.1,
   (unparsable_reward_bypasses_ceiling w5Cfg w10Bounty (by decide)).2.2 w10Env initialState
     rfl rfl (by decide) (by decide) (by decide) (by decide)
     (by with_unfolding_all decide) (by with_unfolding_all decide) rfl⟩

/-- C4: a task evaluated in a cycle whose evaluation has a falsy
`suitable` field has its id added to the skipped set already in the
evaluation phase (before the claim step), keeps it there at the end of the
cycle, is not claimed in that cycle, and — since discovery excludes
skipped ids — is neither re-evaluated nor claimed by any later cycle.
(The remote listing is assumed to carry distinct ids.) -/
theorem unsuitable_task_skipped_never_claimed (env : CycleEnv) (cfg : Config) (st : AgentState)
    (remote : List Bounty) (b : Bounty)
    (hl : env.listing = .ok remote)
    (hnd : (remote.map Bounty.id).Nodup)
    (hb : b ∈ cycleEvaluated env cfg st)
    (hun : evalSuitable env cfg b = false)
    (hnc : b.id ∉ st.claimedBounties) :
    b.id ∈ (midState env cfg st).skippedBounties ∧
    b.id ∈ (runCycle env cfg st).1.skippedBounties ∧
    b.id ∉ (runCycle env cfg st).1.claimedBounties ∧
    (∀ (env2 : CycleEnv) (cfg2 : Config) (s : AgentState),
      b.id ∈ s.skippedBounties → b.id ∉ s.claimedBounties →
      b.id ∈ (runCycle env2 cfg2 s).1.skippedBounties ∧
      b.id ∉ (runCycle env2 cfg2 s).1.claimedBounties) := by
  refine ⟨evalPhase_skipped_mem env cfg _ st b hb hun,
    runCycle_skips_unsuitable env cfg st remote b hl hb hun, ?_, ?_⟩
  · intro hx
    rcases runCycle_claimed_sub env cfg st b.id hx with h | ⟨b2, hb2, hbeq, hbs, _, _⟩
    · exact hnc h
    · have hbb : b2 = b :=
        List.inj_on_of_nodup_map hnd
          (mem_listOpen (mem_discover.1 (mem_cycleEvaluated_discover hl hb2)).1).1
          (mem_listOpen (mem_discover.1 (mem_cycleEvaluated_discover hl hb)).1).1 hbeq
      rw [hbb, hun] at hbs
      cases hbs
  · intro env2 cfg2 s hs hncs
    refine ⟨runCycle_skipped_super env2 cfg2 s hs, ?_⟩
    intro hx
    rcases runCycle_claimed_sub env2 cfg2 s b.id hx with h | ⟨b2, hb2, hbeq, _, _, _⟩
    · exact hncs h
    · rcases hl2 : env2.listing with e | rem2
      · simp [cycleEvaluated, hl2] at hb2
      · exact (mem_discover.1 (mem_cycleEvaluated_discover hl2 hb2)).2.2.2
          (by rw [hbeq]; exact hs)

def w4Bounty : Bounty := wBounty "4" "50000000"

def w4Env : CycleEnv := mkEnv (.ok [w4Bounty]) (.ok wReplyNo)

theorem unsuitable_task_skipped_never_claimed_witness :
    evalSuitable w4Env wCfg w4Bounty = false ∧
    w4Bounty.id ∈ (midState w4Env wCfg initialState).skippedBounties ∧
    w4Bounty.id ∈ (runCycle w4Env wCfg initialState).1.skippedBounties ∧
    w4Bounty.id ∉ (runCycle w4Env wCfg initialState).1.claimedBounties :=
  ⟨by decide,
   (unsuitable_task_skipped_never_claimed w4Env wCfg initialState [w4Bounty] w4Bounty rfl
     (by decide) (by decide) (by decide) (by decide)).1,
   (unsuitable_task_skipped_never_claimed w4Env wCfg initialState [w4Bounty] w4Bounty rfl
     (by decide) (by decide) (by decide) (by decide)).2.1,
   (unsuitable_task_skipped_never_claimed w4Env wCfg initialState [w4Bounty] w4Bounty rfl
     (by decide) (by decide) (by decide) (by decide)).2.2.1⟩

/-! C1: the idempotence claim and its counterexample. -/

def cexBounty (i : String) : Bounty :=
  { id := i, title := "t", description := "", status := "open", reward := "0",
    rewardFormatted := "0", tags := [] }

def cexRemote : List Bounty :=
  [cexBounty "1", cexBounty "2", cexBounty "3", cexBounty "4", cexBounty "5", cexBounty "6"]

def cexEnv : CycleEnv := mkEnv (.ok cexRemote) (.ok wReplyNo)

def cexState1 : AgentState := (runCycle cexEnv wCfg initialState).1

/-- C1 counterexample: with six open unsuitable bounties the first cycle
(from the empty initial state, so `cexState1` is reachable) skips only the
first five — the per-cycle `slice(0, 5)` cap — and the second cycle over
the unchanged remote list still skips the sixth, so the second call does
not leave the tracking sets unchanged. -/
theorem runCycle_second_call_adds_ids_cex :
    (runCycle cexEnv wCfg cexState1).1.skippedBounties ≠ cexState1.skippedBounties ∧
    cexState1.skippedBounties = ["1", "2", "3", "4", "5"] ∧
    (runCycle cexEnv wCfg cexState1).1.skippedBounties = ["1", "2", "3", "4", "5", "6"] := by
  refine ⟨?_, by decide, by decide⟩
  decide

/-- C1 (amended): running `runCycle()` twice in succession over a fixed
remote task list leaves all three tracking sets unchanged on the second
call, provided the first call discovered at most 5 tasks (the per-cycle
evaluation cap) and completed without a propagated error; with more than 5
discovered tasks the second call processes the overflow (see the
counterexample). -/
theorem runCycle_idempotent_of_small_batch (env : CycleEnv) (cfg : Config) (st : AgentState)
    (remote : List Bounty)
    (hl : env.listing = .ok remote)
    (hlen : (discoverBounties remote st).length ≤ 5)
    (hok : (runCycle env cfg st).2 = .ok ()) :
    runCycle env cfg ((runCycle env cfg st).1) = ((runCycle env cfg st).1, .ok ()) := by
  set st1 := (runCycle env cfg st).1 with hst1
  apply runCycle_stable env cfg st1 remote hl
  intro b hb2
  have hd2 := mem_discover.1 hb2
  have hd1 : b ∈ discoverBounties remote st := by
    refine mem_discover.2 ⟨hd2.1, ?_, ?_, ?_⟩
    · intro h; exact hd2.2.1 (runCycle_claimed_super env cfg st h)
    · intro h; exact hd2.2.2.1 (runCycle_completed_super env cfg st h)
    · intro h; exact hd2.2.2.2 (runCycle_skipped_super env cfg st h)
  have htake : (discoverBounties remote st).take 5 = discoverBounties remote st :=
    List.take_of_length_le hlen
  have hbc : b ∈ cycleEvaluated env cfg st := by
    rw [cycleEvaluated_eq cfg st hl, htake]
    exact hd1
  have hsuit : evalSuitable env cfg b = true := by
    rcases hbool : evalSuitable env cfg b with _ | _
    · exact absurd (runCycle_skips_unsuitable env cfg st remote b hl hbc hbool) hd2.2.2.2
    · rfl
  refine ⟨hsuit, ?_⟩
  by_cases hconf : evalConfOk env cfg b = true
  · by_cases hexc : rewardExceeds cfg b = true
    · exact Or.inr (Or.inl hexc)
    · have hexc2 : rewardExceeds cfg b = false := by simpa using hexc
      have hne : discoverBounties remote st ≠ [] := by
        intro h
        rw [cycleEvaluated_eq cfg st hl, h] at hbc
        simp at hbc
      have hrc := @runCycle_eq env cfg st remote hl hne
      have hok2 : (claimPhase env cfg
          (suitablePick (evalPhase env cfg ((discoverBounties remote st).take 5) st).1)
          ((evalPhase env cfg ((discoverBounties remote st).take 5) st).2)).2 = .ok () := by
        rw [← hrc]
        exact hok
      have hmem : (b, evaluateBounty env cfg b) ∈
          suitablePick (evalPhase env cfg ((discoverBounties remote st).take 5) st).1 := by
        rw [suitablePick, List.mem_filter, evalPhase_fst]
        refine ⟨List.mem_map.2 ⟨b, by rw [htake]; exact hd1, rfl⟩, ?_⟩
        rw [show truthy (jget (evaluateBounty env cfg b) "suitable") = true from hsuit,
            show jsGE (jget (evaluateBounty env cfg b) "confidence") (6 / 10 : Rat) = true
              from hconf]
        rfl
      rcases claimPhase_mem env cfg _ _ b (evaluateBounty env cfg b) hmem hok2
        with hx | hx | hx
      · rw [hexc2] at hx
        cases hx
      · exfalso
        apply hd2.2.1
        rw [hst1, hrc]
        exact hx
      · exact Or.inr (Or.inr hx)
  · exact Or.inl (by simpa using hconf)

def waRemote : List Bounty := [cexBounty "1", cexBounty "2"]

def waEnv : CycleEnv := mkEnv (.ok waRemote) (.ok wReplyNo)

theorem runCycle_idempotent_of_small_batch_witness :
    (discoverBounties waRemote initialState).length ≤ 5 ∧
    (runCycle waEnv wCfg initialState).2 = .ok () ∧
    runCycle waEnv wCfg ((runCycle waEnv wCfg initialState).1) =
      ((runCycle waEnv wCfg initialState).1, .ok ()) :=
  ⟨by decide, rfl,
   runCycle_idempotent_of_small_batch waEnv wCfg initialState waRemote rfl
     (by decide) rfl⟩

/-! C3: the span-extraction claim and its counterexample. -/

def c3Reply : String := "\x7b\"suitable\": true\x7d \x7b\"x\": 1\x7d"

def c3FirstSpan : String := "\x7b\"suitable\": true\x7d"

def c3Env : CycleEnv := mkEnv (.ok []) (.ok c3Reply)

/-- C3 counterexample: on a reply holding two objects, the first balanced
`{...}` span parses to an evaluation with `suitable = true`, but the code's
regex takes the span from the first `{` to the last `}` of the whole reply,
whose parse fails, so `evaluateBounty` returns the fail-closed default
rather than the parse of the first balanced span. -/
theorem extract_not_first_balanced_cex :
    firstBalancedSpan c3Reply = some c3FirstSpan ∧
    jsonParse c3FirstSpan = .ok (.obj [("suitable", .bool true)]) ∧
    extractJsonSpan c3Reply = some c3Reply ∧
    evaluateBounty c3Env wCfg (cexBounty "1") ≠ .obj [("suitable", .bool true)] := by
  refine ⟨by decide, rfl, by decide, ?_⟩
  intro h
  have h2 := congrArg (fun v => truthy (jget v "suitable")) h
  have h3 : (false : Bool) = true := h2
  cases h3

def c3wReply : String := "noise \x7b\"suitable\": true\x7d"

def c3wEnv : CycleEnv := mkEnv (.ok []) (.ok c3wReply)

/-- C3 (amended): the engine extracts the span running from the first
opening brace to the last closing brace of the reply (the greedy regex
`/\x7b[\s\S]*\x7d/`), not the first balanced span; in particular when the
reply contains a single embedded JSON object with no `{` before it and no
`}` after it, exactly that object is extracted and, when it parses, its
parse is the returned EvaluationResult. -/
theorem evaluateBounty_single_object_extraction (env : CycleEnv) (cfg : Config) (b : Bounty)
    (reply : String) (pre mid post : List Char) (j : JValue)
    (hch : env.chat (evalMessages cfg b) = .ok reply)
    (hsplit : reply.data = pre ++ ('{' :: mid ++ ['}']) ++ post)
    (hpre : '{' ∉ pre) (hpost : '}' ∉ post)
    (hparse : jsonParse (String.mk ('{' :: mid ++ ['}'])) = .ok j) :
    extractJsonSpan reply = some (String.mk ('{' :: mid ++ ['}'])) ∧
    evaluateBounty env cfg b = j := by
  have hex : extractJsonSpan reply = some (String.mk ('{' :: mid ++ ['}'])) := by
    rw [extractJsonSpan, hsplit,
      extractSpan_first_last (fun c hc h => hpre (h ▸ hc)) (fun c hc h => hpost (h ▸ hc))]
    rfl
  refine ⟨hex, ?_⟩
  simp only [evaluateBounty, hch, hex]
  rw [hparse]

theorem evaluateBounty_single_object_extraction_witness :
    c3wEnv.chat (evalMessages wCfg (cexBounty "1")) = .ok c3wReply ∧
    extractJsonSpan c3wReply = some (String.mk ('{' :: "\"suitable\": true".data ++ ['}'])) ∧
    evaluateBounty c3wEnv wCfg (cexBounty "1") = .obj [("suitable", .bool true)] :=
  ⟨rfl,
   (evaluateBounty_single_object_extraction c3wEnv wCfg (cexBounty "1") c3wReply
     "noise ".data "\"suitable\": true".data [] (.obj [("suitable", .bool true)])
     rfl (by decide) (by decide) (by decide) rfl).1,
   (evaluateBounty_single_object_extraction c3wEnv wCfg (cexBounty "1") c3wReply
     "noise ".data "\"suitable\": true".data [] (.obj [("suitable", .bool true)])
     rfl (by decide) (by decide) (by decide) rfl).2⟩
